import Mathlib

/-!
# Commander text viewer (`src/text_viewer.cpp`)

A shallow embedding of the `TextViewer` widget: the file loader of the
constructor, `saveFile`, the vertical and horizontal movement operations,
`mouseDown`, `onResize`, the five line actions of `editLine` and the title
`editLine` gives its dialog.

Conventions of the embedding

* a `std::string` is a list of bytes (`Line`), a `std::vector<std::string>` a
  list of lines;
* `std::size_t` values are naturals and every `size_t` operation of the source
  is reduced modulo `2 ^ 64` (`wrap`); `int` values are integers,
  `static_cast<int>` is the two's complement reading of the low 32 bits, and
  the sums stored into the `int` field `clip_.x` are reduced to 32 bits
  (`wrapInt`);
* the global `screen` (declared in `screen.h`) is a parameter of every
  operation that reads it;
* `utf8::replaceTabsWithSpaces` (declared in `utf8.h`) is a parameter `tabs` of
  every operation that calls `adjustLineForDisplay`; `utf8::removeBom` and
  `utf8::isTrailByte` of the same header are modelled from the specification;
* rendering (`init`, `render`) and the dialog widgets do not touch the modelled
  fields; the choices a user makes in the modal dialog and in the on-screen
  keyboard are inputs of `editLine`;
* an access or insertion outside a vector is undefined in the source; the total
  list functions used here (`getD`, `set`, `insertIdx`, `eraseIdx`) give it a
  value, and `C2_cursor_in_bounds` shows that no reachable state makes one.
-/

namespace Commander

/-! ## Bytes, lines and machine integers -/

/-- One `char` of a `std::string`, as an unsigned byte. -/
abbrev Byte := Fin 256

/-- A `std::string`. -/
abbrev Line := List Byte

/-- The line feed `'\n'`. -/
def LF : Byte := 10

/-- The carriage return `'\r'`. -/
def CR : Byte := 13

/-- The three bytes `EF BB BF` of a UTF-8 byte order mark. -/
def BOM : Line := [239, 187, 191]

/-- The modulus of `std::size_t` arithmetic. -/
def SIZE_MOD : Int := 18446744073709551616

/-- Conversion of an integer value to `std::size_t` (reduction modulo `2 ^ 64`);
also the result of a `size_t` addition or subtraction computed exactly. -/
def wrap (i : Int) : Nat := (i % SIZE_MOD).toNat

/-- The conversion `static_cast<int>` of a `std::size_t`: the low 32 bits read
as a two's complement number. -/
def toInt (n : Nat) : Int :=
  if n % 4294967296 < 2147483648 then ((n % 4294967296 : Nat) : Int)
  else ((n % 4294967296 : Nat) : Int) - 4294967296

/-- Conversion of an `int` to `unsigned` (reduction modulo `2 ^ 32`). -/
def toUnsigned (i : Int) : Nat := (i % 4294967296).toNat

/-- The value an `int` holds after an arithmetic result is stored into it: the
exact result reduced to 32 bits in two's complement, so `2147483637 + 32` is
stored as `-2147483627`. -/
def wrapInt (i : Int) : Int := (i + 2147483648) % 4294967296 - 2147483648

/-! ## The input stream of the constructor -/

/-- The part of a `std::ifstream` the reading loop observes: the bytes not yet
extracted and the `eofbit`. -/
structure IfStream where
  buf : List Byte
  eofbit : Bool
deriving DecidableEq, Repr

/-- The characters `std::getline` extracts from the unread bytes: the line read
(without the delimiter), the bytes left, and whether the end of the file was hit
before a delimiter (which sets `eofbit`). The delimiter `'\n'` is extracted and
dropped. -/
def getlineChars : List Byte → Line × List Byte × Bool
  | [] => ([], [], true)
  | c :: cs =>
    if c = LF then ([], cs, false)
    else ((c :: (getlineChars cs).1), (getlineChars cs).2.1, (getlineChars cs).2.2)

/-- The call `std::getline(input_file, line)` on a stream whose `eofbit` is
clear: the line read and the stream afterwards. -/
def getline (input : IfStream) : Line × IfStream :=
  ((getlineChars input.buf).1,
    { buf := (getlineChars input.buf).2.1, eofbit := (getlineChars input.buf).2.2 })

/-- The statement `if (!line.empty() && line.back() == '\r') line.pop_back();`. -/
def popTrailingCR (line : Line) : Line :=
  if line.getLast? = some CR then line.dropLast else line

/-- The number of iterations the reading loop can still make: one for every
unread byte and one more while `eofbit` is clear. -/
def IfStream.measure (input : IfStream) : Nat :=
  input.buf.length + (if input.eofbit then 0 else 1)

/-- The loop
`while (!input_file.eof()) { lines_.emplace_back(); getline(...); strip '\r' }`
of the constructor, started with the lines read so far. -/
def readLoop (input : IfStream) (lines : List Line) : List Line :=
  if _h : input.eofbit = true then lines
  else readLoop (getline input).2 (lines ++ [popTrailingCR (getline input).1])
termination_by input.measure
decreasing_by
  have key : ∀ cs : List Byte, (getlineChars cs).2.1.length ≤ cs.length ∧
      ((getlineChars cs).2.2 = false → (getlineChars cs).2.1.length < cs.length) := by
    intro cs
    induction cs with
    | nil => simp [getlineChars]
    | cons c cs ih =>
      unfold getlineChars
      by_cases hc : c = LF
      · simp [hc]
      · simp only [hc, if_false, List.length_cons]
        omega
  have hk := key input.buf
  have he : input.eofbit = false := by simpa using _h
  unfold IfStream.measure getline
  simp only [he]
  cases hb : (getlineChars input.buf).2.2 <;> simp [hb] at hk ⊢ <;> omega

/-- Modelled from the spec: `utf8::removeBom` of `utf8.h`, which is not part of
the sources; it removes one leading byte order mark `EF BB BF` if the line
starts with one and leaves every other line unchanged. -/
def removeBom (line : Line) : Line :=
  if BOM.isPrefixOf line then line.drop 3 else line

/-- The block `if (!lines_.empty()) { utf8::removeBom(&lines_[0]); if
(lines_.back().empty()) lines_.pop_back(); }` after the loop: the byte order
mark is removed from the first line, then an empty last line is dropped. -/
def trimLines : List Line → List Line
  | [] => []
  | first :: rest =>
    if (removeBom first :: rest).getLast? = some [] then (removeBom first :: rest).dropLast
    else removeBom first :: rest

/-- The statements after the loop, up to `if (lines_.empty()) lines_.emplace_back();`:
an empty vector gets one empty line. -/
def finishLines (lines : List Line) : List Line :=
  if (trimLines lines).isEmpty then [[]] else trimLines lines

/-- The line buffer `lines_` the constructor builds from the content of a file
that could be opened. -/
def loadLines (content : List Byte) : List Line :=
  finishLines (readLoop { buf := content, eofbit := false } [])

/-- The bytes `saveFile` writes: every line followed by `"\n"`. -/
def saveBytes : List Line → List Byte
  | [] => []
  | line :: rest => line ++ LF :: saveBytes rest

/-- The raw lines of a file content, the reference the reading loop is compared
with: the pieces between the line feeds, so a content with `k` line feeds has
`k + 1` raw lines (the last one empty when the content ends in a line feed). -/
def rawLines : List Byte → List Line
  | [] => [[]]
  | c :: cs =>
    if c = LF then [] :: rawLines cs
    else (c :: (rawLines cs).headD []) :: (rawLines cs).tail

/-! ## The screen and the viewport -/

/-- The global `screen` of `screen.h`, which is not part of the sources: the
logical height `h` and the scaling factors `ppu_x`, `ppu_y`, taken as exact
integers. -/
structure Screen where
  h : Int
  ppu_x : Int
  ppu_y : Int
deriving DecidableEq, Repr

/-- The macro `VIEWER_LINE_HEIGHT`. -/
def VIEWER_LINE_HEIGHT : Int := 13

/-- The macro `VIEWER_Y_LIST`. -/
def VIEWER_Y_LIST : Int := 17

/-- The macro `VIEWER_X_STEP`. -/
def VIEWER_X_STEP : Int := 32

/-- The number of lines that fully fit into the viewport (`int` division
truncates towards zero). -/
def numFullViewportLines (screen : Screen) : Int :=
  Int.tdiv (screen.h - VIEWER_Y_LIST) VIEWER_LINE_HEIGHT

/-- The number of lines that are visible, even if partially, in the viewport. -/
def numTotalViewportLines (screen : Screen) : Int :=
  Int.tdiv (screen.h - VIEWER_Y_LIST - 1) VIEWER_LINE_HEIGHT + 1

/-- The helper `adjustLineForDisplay`, which calls
`utf8::replaceTabsWithSpaces` (the parameter `tabs`). -/
def adjustLineForDisplay (tabs : Line → Line) (line : Line) : Line := tabs line

/-! ## The widget -/

/-- The fields of `TextViewer` the operations below read and write;
`clip_x` is the 32-bit `int` field `clip_.x` and `m_retVal` the return value
inherited from `CWindow`. -/
structure TextViewer where
  lines_ : List Line
  lines_for_display_ : List Line
  first_line_ : Nat
  current_line_ : Nat
  clip_x : Int
  m_retVal : Int
deriving DecidableEq, Repr

/-- What the user does in the modal widgets `editLine` opens: the value
`dialog.execute()` returns, the value `keyboard.execute()` returns and the text
`keyboard.getInputText()` returns. -/
structure DialogInput where
  dialog_result : Int
  keyboard_result : Int
  input_text : Line
deriving DecidableEq, Repr

/-- The mouse buttons `mouseDown` distinguishes. -/
inductive MouseButton where
  | left
  | right
  | x1
  | other
deriving DecidableEq, Repr

/-- The keys `keyPress` distinguishes. -/
inductive Key where
  | system
  | parent
  | open_
  | up
  | down
  | pageUp
  | pageDown
  | left
  | right
  | other
deriving DecidableEq, Repr

namespace TextViewer

/-- The object when the constructor body starts: the member initialisers have
set `first_line_` and `current_line_` to 0 and the vectors are empty;
`retVal0` is the value the base class `CWindow` (not part of the sources) gives
`m_retVal` and `clip0` the value `clip_.x` holds before it is assigned. -/
def initial (retVal0 clip0 : Int) : TextViewer :=
  { lines_ := [], lines_for_display_ := [], first_line_ := 0, current_line_ := 0,
    clip_x := clip0, m_retVal := retVal0 }

/-- The constructor `TextViewer::TextViewer(filename)`. The file is `none` when
`input_file.is_open()` is false and `some content` otherwise. -/
def construct (tabs : Line → Line) (retVal0 clip0 : Int)
    (file : Option (List Byte)) : TextViewer :=
  match file with
  | none => { initial retVal0 clip0 with m_retVal := -1 }
  | some content =>
    { initial retVal0 clip0 with
      lines_ := loadLines content,
      lines_for_display_ := (loadLines content).map (adjustLineForDisplay tabs),
      clip_x := 0 }

/-- The method `maxFirstLine`: `viewport_lines` is converted to `size_t` for
the comparison and the subtraction, and the result is returned as `int`. -/
def maxFirstLine (screen : Screen) (self : TextViewer) : Int :=
  toInt (if self.lines_.length ≥ wrap (numFullViewportLines screen)
    then wrap (self.lines_.length - numFullViewportLines screen) else 0)

/-- The scroll adjustment shared by `moveDown` and `onResize`:
`if (current_line_ > first_line_ + numFullViewportLines() - 1)
   first_line_ = std::min(static_cast<int>(current_line_ - numFullViewportLines() + 1), max_first_line);`. -/
def scrollToCursorBelow (screen : Screen) (self : TextViewer) : TextViewer :=
  if self.current_line_ > wrap (self.first_line_ + numFullViewportLines screen - 1) then
    { self with
      first_line_ :=
        wrap (min (toInt (wrap (self.current_line_ - numFullViewportLines screen + 1)))
          (maxFirstLine screen self)) }
  else self

/-- The method `onResize`. -/
def onResize (screen : Screen) (self : TextViewer) : TextViewer :=
  scrollToCursorBelow screen self

/-- The method `moveUp(step)`: the value returned and the object afterwards. -/
def moveUp (self : TextViewer) (step : Nat) : Bool × TextViewer :=
  let changed := decide (self.current_line_ > 0)
  let self1 :=
    if self.current_line_ > 0 then
      { self with
        current_line_ := if self.current_line_ ≥ step then self.current_line_ - step else 0 }
    else self
  let self2 :=
    if self1.current_line_ < self1.first_line_ then
      { self1 with first_line_ := self1.current_line_ }
    else self1
  (changed, self2)

/-- The method `moveDown(step)`: the value returned and the object afterwards. -/
def moveDown (screen : Screen) (self : TextViewer) (step : Nat) : Bool × TextViewer :=
  if self.lines_.isEmpty then (false, self)
  else
    let changed := decide (wrap (self.current_line_ + 1) < self.lines_.length)
    let self1 :=
      if wrap (self.current_line_ + 1) < self.lines_.length then
        { self with
          current_line_ :=
            min (wrap (self.current_line_ + step)) (wrap (self.lines_.length - 1)) }
      else self
    (changed, scrollToCursorBelow screen self1)

/-- The method `moveLeft`; the result of `clip_.x -= ...` is stored into the
`int` field `clip_.x`. -/
def moveLeft (screen : Screen) (self : TextViewer) : Bool × TextViewer :=
  if self.clip_x > 0 then
    if self.clip_x > VIEWER_X_STEP * screen.ppu_x then
      (true, { self with clip_x := wrapInt (self.clip_x - VIEWER_X_STEP * screen.ppu_x) })
    else (true, { self with clip_x := 0 })
  else (false, self)

/-- The method `moveRight`; the result of `clip_.x += ...` is stored into the
`int` field `clip_.x`, which wraps around when the sum exceeds `INT_MAX`. -/
def moveRight (screen : Screen) (self : TextViewer) : Bool × TextViewer :=
  (true, { self with clip_x := wrapInt (self.clip_x + VIEWER_X_STEP * screen.ppu_x) })

/-- The handler of "Edit line": the text is committed when the keyboard was
confirmed (`execute() == 1`) and the text differs from the line. -/
def handleEditLine (tabs : Line → Line) (self : TextViewer) (ui : DialogInput) :
    TextViewer :=
  if ui.keyboard_result = 1 ∧ ui.input_text ≠ self.lines_.getD self.current_line_ [] then
    { self with
      lines_ := self.lines_.set self.current_line_ ui.input_text,
      lines_for_display_ :=
        self.lines_for_display_.set self.current_line_
          (adjustLineForDisplay tabs ui.input_text) }
  else self

/-- The handler of "Duplicate line". In `first_line_ < maxFirstLine()` the `int`
is converted to `std::size_t`. -/
def handleDuplicateLine (screen : Screen) (self : TextViewer) : TextViewer :=
  let self1 : TextViewer :=
    { self with
      lines_ :=
        self.lines_.insertIdx (self.current_line_ + 1)
          (self.lines_.getD self.current_line_ []),
      lines_for_display_ :=
        self.lines_for_display_.insertIdx (self.current_line_ + 1)
          (self.lines_for_display_.getD self.current_line_ []) }
  if self1.first_line_ < wrap (maxFirstLine screen self1) then
    { self1 with first_line_ := wrap (self1.first_line_ + 1) }
  else self1

/-- The handler of "Insert line before". -/
def handleInsertLineBefore (self : TextViewer) : TextViewer :=
  let self1 : TextViewer :=
    { self with
      lines_ := self.lines_.insertIdx self.current_line_ [],
      lines_for_display_ := self.lines_for_display_.insertIdx self.current_line_ [],
      current_line_ := wrap (self.current_line_ + 1) }
  if self1.current_line_ = self1.first_line_ then
    { self1 with first_line_ := wrap (self1.first_line_ - 1) }
  else self1

/-- The handler of "Insert line after". -/
def handleInsertLineAfter (screen : Screen) (self : TextViewer) : TextViewer :=
  let self1 : TextViewer :=
    { self with
      lines_ := self.lines_.insertIdx (self.current_line_ + 1) [],
      lines_for_display_ := self.lines_for_display_.insertIdx (self.current_line_ + 1) [] }
  if self1.first_line_ < wrap (maxFirstLine screen self1) then
    { self1 with first_line_ := wrap (self1.first_line_ + 1) }
  else self1

/-- The handler of "Remove line". -/
def handleRemoveLine (self : TextViewer) : TextViewer :=
  let self1 : TextViewer :=
    { self with
      lines_ := self.lines_.eraseIdx self.current_line_,
      lines_for_display_ := self.lines_for_display_.eraseIdx self.current_line_ }
  let self2 : TextViewer :=
    if self1.lines_.isEmpty then
      { self1 with
        lines_ := self1.lines_ ++ [[]],
        lines_for_display_ := self1.lines_for_display_ ++ [[]] }
    else self1
  if self2.current_line_ = self2.lines_.length then
    { self2 with current_line_ := wrap (self2.current_line_ - 1) }
  else self2

/-- The method `editLine`: the dialog is run and, when its result is the
number of one of the five options, `handlers[dialog_result - 1]` is called. The
method always returns true. -/
def editLine (tabs : Line → Line) (screen : Screen) (self : TextViewer)
    (ui : DialogInput) : Bool × TextViewer :=
  if ui.dialog_result = 1 then (true, handleEditLine tabs self ui)
  else if ui.dialog_result = 2 then (true, handleDuplicateLine screen self)
  else if ui.dialog_result = 3 then (true, handleInsertLineBefore self)
  else if ui.dialog_result = 4 then (true, handleInsertLineAfter screen self)
  else if ui.dialog_result = 5 then (true, handleRemoveLine self)
  else (true, self)

/-- The method `getLineAt`: the viewport row under the point, or -1. -/
def getLineAt (screen : Screen) (self : TextViewer) (_x y : Int) : Int :=
  if y < VIEWER_Y_LIST * screen.ppu_y then -1
  else if wrap (self.first_line_ +
      Int.tdiv (y - VIEWER_Y_LIST * screen.ppu_y) (VIEWER_LINE_HEIGHT * screen.ppu_y))
      ≥ self.lines_.length then -1
  else Int.tdiv (y - VIEWER_Y_LIST * screen.ppu_y) (VIEWER_LINE_HEIGHT * screen.ppu_y)

/-- The method `mouseDown(button, x, y)`; `ui` is what the user does in the
dialog when the click opens it. -/
def mouseDown (tabs : Line → Line) (screen : Screen) (self : TextViewer)
    (button : MouseButton) (x y : Int) (ui : DialogInput) : Bool × TextViewer :=
  match button with
  | .left =>
    if getLineAt screen self x y ≠ -1 then
      if self.current_line_ = wrap (self.first_line_ + getLineAt screen self x y) then
        (true, (editLine tabs screen self ui).2)
      else
        let self1 : TextViewer :=
          { self with current_line_ := wrap (self.first_line_ + getLineAt screen self x y) }
        if wrap (self1.first_line_ + numFullViewportLines screen) < self1.current_line_ then
          (true, { self1 with first_line_ := wrap (self1.first_line_ + 1) })
        else (true, self1)
    else (false, self)
  | .right => (true, { self with m_retVal := -1 })
  | .x1 => (true, { self with m_retVal := -1 })
  | .other => (false, self)

/-- The method `keyPress`, on the key of the event; `ui` is what the user does
in the dialog when the key opens it. `numFullViewportLines() - 1` is converted
to the `unsigned` parameter of `moveUp` and `moveDown`. -/
def keyPress (tabs : Line → Line) (screen : Screen) (self : TextViewer)
    (key : Key) (ui : DialogInput) : Bool × TextViewer :=
  match key with
  | .system => (true, { self with m_retVal := -1 })
  | .parent => (true, { self with m_retVal := -1 })
  | .open_ => editLine tabs screen self ui
  | .up => moveUp self 1
  | .down => moveDown screen self 1
  | .pageUp => moveUp self (toUnsigned (numFullViewportLines screen - 1))
  | .pageDown => moveDown screen self (toUnsigned (numFullViewportLines screen - 1))
  | .left => moveLeft screen self
  | .right => moveRight screen self
  | .other => (false, self)

end TextViewer

/-! ## Reachable states -/

/-- The two buffers have the same length and the cursor is an index of the line
buffer. -/
def TextViewer.CursorInBounds (self : TextViewer) : Prop :=
  self.lines_for_display_.length = self.lines_.length ∧
    self.current_line_ < self.lines_.length

/-- An operation on the widget, with the inputs it takes. -/
inductive Event where
  | moveUp (step : Nat)
  | moveDown (step : Nat)
  | moveLeft
  | moveRight
  | mouseDown (x y : Int) (ui : DialogInput)
  | onResize
  | editLine (ui : DialogInput)
deriving DecidableEq, Repr

/-- The object after an operation; `mouseDown` is a primary click. -/
def TextViewer.perform (tabs : Line → Line) (screen : Screen) (self : TextViewer) :
    Event → TextViewer
  | .moveUp step => (self.moveUp step).2
  | .moveDown step => (self.moveDown screen step).2
  | .moveLeft => (self.moveLeft screen).2
  | .moveRight => (self.moveRight screen).2
  | .mouseDown x y ui => (self.mouseDown tabs screen .left x y ui).2
  | .onResize => self.onResize screen
  | .editLine ui => (self.editLine tabs screen ui).2

/-- The states reachable from a successful construction by operations, each
performed under the screen geometry current at that moment. -/
inductive Reachable (tabs : Line → Line) : TextViewer → Prop where
  | construct (retVal0 clip0 : Int) (content : List Byte) :
      Reachable tabs (TextViewer.construct tabs retVal0 clip0 (some content))
  | perform (screen : Screen) (event : Event) {self : TextViewer} :
      Reachable tabs self → Reachable tabs (self.perform tabs screen event)

/-- The states reached from `self` by a list of operations under one fixed
screen geometry. -/
def TextViewer.performAll (tabs : Line → Line) (screen : Screen) (self : TextViewer) :
    List Event → TextViewer
  | [] => self
  | event :: rest => (self.perform tabs screen event).performAll tabs screen rest

/-- The cursor lies in the window of fully visible lines:
`first_line_ <= current_line_ <= first_line_ + numFullViewportLines() - 1`, as
integers. -/
def TextViewer.CursorInWindow (screen : Screen) (self : TextViewer) : Prop :=
  self.first_line_ ≤ self.current_line_ ∧
    (self.current_line_ : Int) ≤ self.first_line_ + numFullViewportLines screen - 1

/-- The window invariant: the cursor is an index of the line buffer, the scroll
offset is at most `maxFirstLine()`, and the cursor lies in the window of fully
visible lines. -/
def TextViewer.WindowInvariant (screen : Screen) (self : TextViewer) : Prop :=
  self.current_line_ < self.lines_.length ∧
    (self.first_line_ : Int) ≤ self.maxFirstLine screen ∧
    self.CursorInWindow screen

/-! ## The title of the line dialog -/

/-- Modelled from the spec: `utf8::isTrailByte` of `utf8.h`, which is not part of
the sources; a byte is a trail (continuation) byte of UTF-8 when
`(byte & 0xC0) == 0x80`. -/
def isTrailByte (b : Byte) : Bool := b.val &&& 192 == 128

/-- The constant `kMaxTitleLen` of `editLine`. -/
def kMaxTitleLen : Nat := 60

/-- The loop `while (len > 0 && utf8::isTrailByte(title[len - 1])) --len;`,
started at `len`: the value of `len` when it ends. -/
def skipTrailBytesBack (title : Line) : Nat → Nat
  | 0 => 0
  | len + 1 =>
    if isTrailByte (title.getD len 0) then skipTrailBytesBack title len else len + 1

/-- The length `len` the title is resized to when it is longer than
`kMaxTitleLen`: `kMaxTitleLen - 3`, moved back by the loop when
`!utf8::isTrailByte(title[len])`. -/
def titleCut (title : Line) : Nat :=
  if !isTrailByte (title.getD (kMaxTitleLen - 3) 0) then
    skipTrailBytesBack title (kMaxTitleLen - 3)
  else kMaxTitleLen - 3

/-- The text of the display line as `editLine` puts it into the dialog title: a
line longer than `kMaxTitleLen` is resized to `len` bytes and `"..."` is
appended. -/
def truncateTitle (title : Line) : Line :=
  if title.length > kMaxTitleLen then title.take (titleCut title) ++ [46, 46, 46]
  else title

/-- The decimal digits `std::to_string` gives a `std::size_t`. -/
def toDecimal (n : Nat) : Line := (Nat.toDigits 10 n).map (fun c => Fin.ofNat c.toNat)

/-- The title `"Line " + std::to_string(current_line_ + 1) + ": " + title` that
`editLine` gives the dialog. -/
def TextViewer.dialogTitle (self : TextViewer) : Line :=
  [76, 105, 110, 101, 32] ++ toDecimal (wrap (self.current_line_ + 1)) ++ [58, 32] ++
    truncateTitle (self.lines_for_display_.getD self.current_line_ [])

/-- Well-formed UTF-8, read with `pending` trail bytes still due: a byte
`0xxxxxxx` stands alone, a lead byte `110xxxxx`, `1110xxxx` or `11110xxx` is
followed by one, two or three trail bytes, and the text does not end inside a
character. -/
def validUtf8From : Nat → List Byte → Bool
  | 0, [] => true
  | _ + 1, [] => false
  | 0, b :: rest =>
    if b.val < 128 then validUtf8From 0 rest
    else if 192 ≤ b.val ∧ b.val < 224 then validUtf8From 1 rest
    else if 224 ≤ b.val ∧ b.val < 240 then validUtf8From 2 rest
    else if 240 ≤ b.val ∧ b.val < 248 then validUtf8From 3 rest
    else false
  | pending + 1, b :: rest => if isTrailByte b then validUtf8From pending rest else false

/-- Well-formed UTF-8: a sequence of complete characters. -/
def validUtf8 (text : List Byte) : Bool := validUtf8From 0 text

end Commander

namespace Commander

/-! ## The loader -/

theorem rawLines_ne_nil (cs : List Byte) : rawLines cs ≠ [] := by
  cases cs with
  | nil => simp [rawLines]
  | cons c cs => unfold rawLines; split <;> simp

theorem rawLines_cons_of_ne (c : Byte) (cs : List Byte) (hc : c ≠ LF) :
    rawLines (c :: cs) = (c :: (rawLines cs).headD []) :: (rawLines cs).tail := by
  simp [rawLines, hc]

theorem headD_cons_tail (L : List Line) (h : L ≠ []) : L.headD [] :: L.tail = L := by
  cases L with
  | nil => exact absurd rfl h
  | cons a t => rfl

/-- What one call of `getline` returns, in terms of the raw lines. -/
theorem getlineChars_rawLines (cs : List Byte) :
    rawLines cs = if (getlineChars cs).2.2 = true then [(getlineChars cs).1]
      else (getlineChars cs).1 :: rawLines (getlineChars cs).2.1 := by
  induction cs with
  | nil => simp [rawLines, getlineChars]
  | cons c cs ih =>
    by_cases hc : c = LF
    · simp [rawLines, getlineChars, hc]
    · rw [rawLines_cons_of_ne c cs hc]
      simp only [getlineChars, hc, if_false]
      rw [ih]
      split <;> simp

theorem getlineChars_measure (cs : List Byte) :
    (getlineChars cs).2.2 = false → (getlineChars cs).2.1.length < cs.length := by
  induction cs with
  | nil => simp [getlineChars]
  | cons c cs ih =>
    unfold getlineChars
    by_cases hc : c = LF
    · simp [hc]
    · simp only [hc, if_false, List.length_cons]
      intro h
      have := ih h
      omega

/-- The reading loop appends the raw lines of the unread bytes, each with one
trailing carriage return removed. -/
theorem readLoop_eq (n : Nat) : ∀ (buf : List Byte) (lines : List Line), buf.length ≤ n →
    readLoop { buf := buf, eofbit := false } lines
      = lines ++ (rawLines buf).map popTrailingCR := by
  induction n with
  | zero =>
    intro buf lines h
    have hb : buf = [] := List.length_eq_zero.mp (Nat.le_zero.mp h)
    subst hb
    rw [readLoop]
    simp only [Bool.false_eq_true, dite_false, getline, getlineChars]
    rw [readLoop]
    simp [rawLines]
  | succ n ih =>
    intro buf lines h
    rw [readLoop]
    simp only [Bool.false_eq_true, dite_false, getline]
    rw [getlineChars_rawLines buf]
    cases he : (getlineChars buf).2.2 with
    | true =>
      rw [readLoop]
      simp
    | false =>
      have hlt := getlineChars_measure buf he
      rw [ih _ _ (by omega)]
      simp

theorem loadLines_eq (content : List Byte) :
    loadLines content = finishLines ((rawLines content).map popTrailingCR) := by
  unfold loadLines
  rw [readLoop_eq content.length content [] (Nat.le_refl _)]
  simp


theorem rawLines_noLF (cs : List Byte) : ∀ l ∈ rawLines cs, LF ∉ l := by
  induction cs with
  | nil => simp [rawLines]
  | cons c cs ih =>
    by_cases hc : c = LF
    · simpa [rawLines, hc] using ih
    · rw [rawLines_cons_of_ne c cs hc]
      have hne := rawLines_ne_nil cs
      cases hr : rawLines cs with
      | nil => exact absurd hr hne
      | cons a t =>
        rw [hr] at ih
        intro l hl
        simp only [List.headD_cons, List.tail_cons, List.mem_cons] at hl
        rcases hl with rfl | hl
        · have ha := ih a (by simp)
          simp only [List.mem_cons, not_or]
          exact ⟨fun h => hc h.symm, ha⟩
        · exact ih l (by simp [hl])

theorem rawLines_append_LF (l : Line) (rest : List Byte) (h : LF ∉ l) :
    rawLines (l ++ LF :: rest) = l :: rawLines rest := by
  induction l with
  | nil => simp [rawLines]
  | cons c l ih =>
    simp only [List.mem_cons, not_or] at h
    have hc : c ≠ LF := fun e => h.1 e.symm
    rw [List.cons_append, rawLines_cons_of_ne c _ hc, ih h.2]
    simp

theorem rawLines_saveBytes (L : List Line) (h : ∀ l ∈ L, LF ∉ l) :
    rawLines (saveBytes L) = L ++ [[]] := by
  induction L with
  | nil => simp [saveBytes, rawLines]
  | cons l L ih =>
    rw [saveBytes, rawLines_append_LF l _ (h l (by simp)), ih (fun x hx => h x (by simp [hx]))]
    simp

theorem popTrailingCR_length_le (l : Line) : (popTrailingCR l).length ≤ l.length := by
  unfold popTrailingCR
  split <;> simp

theorem popTrailingCR_eq_self_iff (l : Line) :
    popTrailingCR l = l ↔ l.getLast? ≠ some CR := by
  unfold popTrailingCR
  constructor
  · intro h hcr
    rw [if_pos hcr] at h
    have hl := congrArg List.length h
    rw [List.length_dropLast] at hl
    have hne : l ≠ [] := by
      intro e
      rw [e] at hcr
      simp at hcr
    have := List.length_pos.mpr hne
    omega
  · intro h
    rw [if_neg h]

theorem popTrailingCR_nil : popTrailingCR [] = [] := by
  simp [popTrailingCR]

theorem removeBom_length_le (l : Line) : (removeBom l).length ≤ l.length := by
  unfold removeBom
  split <;> simp

theorem removeBom_eq_self_iff (l : Line) : removeBom l = l ↔ ¬ BOM <+: l := by
  unfold removeBom
  constructor
  · intro h hp
    rw [if_pos (List.isPrefixOf_iff_prefix.mpr hp)] at h
    have hl := congrArg List.length h
    have hlen := hp.length_le
    simp [BOM] at hl hlen
    omega
  · intro h
    rw [if_neg (fun hp => h (List.isPrefixOf_iff_prefix.mp hp))]

theorem removeBom_append (l : Line) : removeBom (BOM ++ l) = l := by
  unfold removeBom
  rw [if_pos (List.isPrefixOf_iff_prefix.mpr (List.prefix_append BOM l))]
  simp [BOM]

/-- Both normalisations of the first line are the identity exactly on a line
that neither ends in a carriage return nor starts with a byte order mark. -/
theorem removeBom_popTrailingCR_eq_self_iff (l : Line) :
    removeBom (popTrailingCR l) = l ↔ l.getLast? ≠ some CR ∧ ¬ BOM <+: l := by
  constructor
  · intro h
    have h1 := removeBom_length_le (popTrailingCR l)
    have h2 := popTrailingCR_length_le l
    have hl := congrArg List.length h
    have hp : popTrailingCR l = l := by
      by_contra hne
      have hcr : l.getLast? = some CR := by
        by_contra hx
        exact hne ((popTrailingCR_eq_self_iff l).mpr hx)
      have : (popTrailingCR l).length = l.length - 1 := by
        unfold popTrailingCR
        rw [if_pos hcr, List.length_dropLast]
      have hne' : l ≠ [] := by
        intro e
        rw [e] at hcr
        simp at hcr
      have := List.length_pos.mpr hne'
      omega
    rw [hp] at h
    exact ⟨(popTrailingCR_eq_self_iff l).mp hp, (removeBom_eq_self_iff l).mp h⟩
  · rintro ⟨h1, h2⟩
    rw [(popTrailingCR_eq_self_iff l).mpr h1, (removeBom_eq_self_iff l).mpr h2]

theorem finishLines_concat_nil (first : Line) (rest : List Line) :
    finishLines (first :: rest ++ [[]]) = removeBom first :: rest := by
  have h1 : (removeBom first :: (rest ++ [[]])).getLast? = some [] := by
    rw [← List.cons_append, List.getLast?_concat]
  have h2 : (removeBom first :: (rest ++ [[]])).dropLast = removeBom first :: rest := by
    rw [← List.cons_append, List.dropLast_concat]
  have h3 : trimLines (first :: rest ++ [[]]) = removeBom first :: rest := by
    simp only [List.cons_append, trimLines, h1, if_true, h2]
  rw [List.cons_append] at h3
  simp [finishLines, h3]

/-- Reloading what `saveFile` wrote, for a non-empty buffer whose lines hold no
line feed: the first line is normalised again, and so is the trailing carriage
return of every line. -/
theorem loadLines_saveBytes (first : Line) (rest : List Line)
    (h : ∀ l ∈ first :: rest, LF ∉ l) :
    loadLines (saveBytes (first :: rest))
      = removeBom (popTrailingCR first) :: rest.map popTrailingCR := by
  rw [loadLines_eq, rawLines_saveBytes _ h]
  simp only [List.map_append, List.map_cons, List.map_nil, popTrailingCR_nil]
  exact finishLines_concat_nil _ _

theorem finishLines_ne_nil (lines : List Line) : finishLines lines ≠ [] := by
  unfold finishLines
  split
  · simp
  · rename_i h
    intro e
    rw [e] at h
    simp at h

theorem loadLines_ne_nil (content : List Byte) : loadLines content ≠ [] := by
  rw [loadLines_eq]
  exact finishLines_ne_nil _

theorem popTrailingCR_noLF (l : Line) (h : LF ∉ l) : LF ∉ popTrailingCR l := by
  unfold popTrailingCR
  split
  · exact fun hm => h (List.mem_of_mem_dropLast hm)
  · exact h

theorem removeBom_noLF (l : Line) (h : LF ∉ l) : LF ∉ removeBom l := by
  unfold removeBom
  split
  · exact fun hm => h (List.mem_of_mem_drop hm)
  · exact h

theorem trimLines_noLF (lines : List Line) (h : ∀ l ∈ lines, LF ∉ l) :
    ∀ l ∈ trimLines lines, LF ∉ l := by
  cases lines with
  | nil => simp [trimLines]
  | cons first rest =>
    have h0 : ∀ l ∈ removeBom first :: rest, LF ∉ l := by
      intro l hl
      rcases List.mem_cons.mp hl with rfl | hl
      · exact removeBom_noLF _ (h first (by simp))
      · exact h l (by simp [hl])
    intro l hl
    simp only [trimLines] at hl
    split at hl
    · exact h0 l (List.mem_of_mem_dropLast hl)
    · exact h0 l hl

theorem finishLines_noLF (lines : List Line) (h : ∀ l ∈ lines, LF ∉ l) :
    ∀ l ∈ finishLines lines, LF ∉ l := by
  unfold finishLines
  split
  · simp
  · exact trimLines_noLF lines h

theorem loadLines_noLF (content : List Byte) : ∀ l ∈ loadLines content, LF ∉ l := by
  rw [loadLines_eq]
  apply finishLines_noLF
  intro l hl
  obtain ⟨r, hr, rfl⟩ := List.mem_map.mp hl
  exact popTrailingCR_noLF r (rawLines_noLF content r hr)

theorem map_popTrailingCR_eq_self_iff (L : List Line) :
    L.map popTrailingCR = L ↔ ∀ l ∈ L, l.getLast? ≠ some CR := by
  induction L with
  | nil => simp
  | cons a t ih =>
    simp only [List.map_cons, List.cons.injEq, List.mem_cons, forall_eq_or_imp, ih,
      popTrailingCR_eq_self_iff]


theorem finishLines_getElem? (lines : List Line) (i : Nat) (hi : 0 < i)
    (hlt : i < (finishLines lines).length) : (finishLines lines)[i]? = lines[i]? := by
  cases lines with
  | nil =>
    simp [finishLines, trimLines] at hlt
    omega
  | cons first rest =>
    obtain ⟨j, rfl⟩ : ∃ j, i = j + 1 := ⟨i - 1, by omega⟩
    unfold finishLines at hlt ⊢
    by_cases hlast : (removeBom first :: rest).getLast? = some []
    · have ht : trimLines (first :: rest) = (removeBom first :: rest).dropLast := by
        simp only [trimLines, hlast, if_true]
      rw [ht] at hlt ⊢
      by_cases he : (removeBom first :: rest).dropLast.isEmpty = true
      · rw [if_pos he] at hlt
        simp at hlt
      · rw [if_neg he] at hlt ⊢
        rw [List.getElem?_dropLast]
        rw [List.length_dropLast] at hlt
        rw [if_pos hlt]
        simp
    · have ht : trimLines (first :: rest) = removeBom first :: rest := by
        simp only [trimLines, hlast, if_false]
      rw [ht]
      simp

/-- The error sentinel of the constructor and the buffer it builds. -/
theorem construct_lines (tabs : Line → Line) (retVal0 clip0 : Int) (content : List Byte) :
    (TextViewer.construct tabs retVal0 clip0 (some content)).lines_ = loadLines content := rfl

/-! ## C3: saving then reloading -/

/-- C3, as stated, fails: the file `"a\r\r\n"` loads as the single line `"a\r"`
(one carriage return is removed), is saved as `"a\r\n"`, and reloads as `"a"`. -/
theorem C3_reload_differs :
    loadLines [97, 13, 13, 10] = [[97, 13]] ∧
      saveBytes (loadLines [97, 13, 13, 10]) = [97, 13, 10] ∧
      loadLines (saveBytes (loadLines [97, 13, 13, 10])) = [[97]] ∧
      loadLines (saveBytes (loadLines [97, 13, 13, 10])) ≠ loadLines [97, 13, 13, 10] := by
  have h1 : loadLines [97, 13, 13, 10] = [[97, 13]] := by
    rw [loadLines_eq]
    decide
  have h2 : saveBytes [[97, 13]] = [97, 13, 10] := by decide
  have h3 : loadLines [97, 13, 10] = [[97]] := by
    rw [loadLines_eq]
    decide
  rw [h1, h2, h3]
  decide

/-- C3, amended: for every file content `f`, saving the loaded buffer and
loading it again gives the same buffer exactly when no loaded line ends in a
carriage return and the first loaded line does not start with a byte order
mark (the reload removes one more of each). -/
theorem C3_reload_eq_iff (f : List Byte) :
    loadLines (saveBytes (loadLines f)) = loadLines f ↔
      (∀ l ∈ loadLines f, l.getLast? ≠ some CR) ∧ ¬ BOM <+: (loadLines f).headD [] := by
  have hLF := loadLines_noLF f
  have hne := loadLines_ne_nil f
  cases hL : loadLines f with
  | nil => exact absurd hL hne
  | cons first rest =>
    rw [hL] at hLF
    rw [loadLines_saveBytes first rest hLF]
    simp only [List.cons.injEq, removeBom_popTrailingCR_eq_self_iff,
      map_popTrailingCR_eq_self_iff, List.mem_cons, forall_eq_or_imp, List.headD_cons]
    tauto

/-! ## C7: loading a newline-terminated file -/

/-- C7: for every non-empty list `L` of lines without a line feed, none ending in
a carriage return and the first not starting with a byte order mark, the viewer
constructed on `L` written out line by line (each followed by a line feed) has
the line buffer `L`, the cursor 0 and the scroll offset 0. -/
theorem C7_load_saved_lines (tabs : Line → Line) (retVal0 clip0 : Int) (L : List Line)
    (hne : L ≠ []) (hLF : ∀ l ∈ L, LF ∉ l) (hCR : ∀ l ∈ L, l.getLast? ≠ some CR)
    (hBOM : ¬ BOM <+: L.headD []) :
    (TextViewer.construct tabs retVal0 clip0 (some (saveBytes L))).lines_ = L ∧
      (TextViewer.construct tabs retVal0 clip0 (some (saveBytes L))).current_line_ = 0 ∧
      (TextViewer.construct tabs retVal0 clip0 (some (saveBytes L))).first_line_ = 0 := by
  refine ⟨?_, rfl, rfl⟩
  rw [construct_lines]
  cases L with
  | nil => exact absurd rfl hne
  | cons first rest =>
    rw [loadLines_saveBytes first rest hLF]
    have h1 : removeBom (popTrailingCR first) = first :=
      (removeBom_popTrailingCR_eq_self_iff first).mpr ⟨hCR first (by simp), hBOM⟩
    have h2 : rest.map popTrailingCR = rest :=
      (map_popTrailingCR_eq_self_iff rest).mpr (fun l hl => hCR l (by simp [hl]))
    rw [h1, h2]

/-- The example of C7: the file `"a\nb\nc\n"` loads as `["a", "b", "c"]` with the
cursor and the scroll offset at 0. -/
theorem C7_load_saved_lines_abc :
    saveBytes [[97], [98], [99]] = [97, 10, 98, 10, 99, 10] ∧
      (TextViewer.construct id 0 0 (some (saveBytes [[97], [98], [99]]))).lines_
        = [[97], [98], [99]] ∧
      (TextViewer.construct id 0 0 (some (saveBytes [[97], [98], [99]]))).current_line_ = 0 ∧
      (TextViewer.construct id 0 0 (some (saveBytes [[97], [98], [99]]))).first_line_ = 0 :=
  ⟨by decide,
    C7_load_saved_lines id 0 0 [[97], [98], [99]] (by decide) (by decide) (by decide)
      (by decide)⟩

/-! ## C9: the byte order mark -/

/-- C9: a byte order mark in front of a content that does not start with one is
removed by loading (the buffer is that of the content without it), and every
loaded line but the first is the raw line at the same index with one trailing
carriage return removed, whatever its first bytes. -/
theorem C9_bom_first_line_only (f : List Byte) :
    (¬ BOM <+: f → loadLines (BOM ++ f) = loadLines f) ∧
      (∀ i, 0 < i → i < (loadLines f).length →
        (loadLines f)[i]? = ((rawLines f)[i]?).map popTrailingCR) := by
  constructor
  · intro hf
    rw [loadLines_eq, loadLines_eq]
    have hsplit : rawLines (BOM ++ f)
        = (BOM ++ (rawLines f).headD []) :: (rawLines f).tail := by
      simp only [BOM, List.cons_append, List.nil_append]
      rw [rawLines_cons_of_ne _ _ (by decide), rawLines_cons_of_ne _ _ (by decide),
        rawLines_cons_of_ne _ _ (by decide)]
      simp
    rw [hsplit]
    have hne := rawLines_ne_nil f
    cases hr : rawLines f with
    | nil => exact absurd hr hne
    | cons first rest =>
      simp only [List.headD_cons, List.tail_cons, List.map_cons]
      -- the first raw line is a prefix of the content
      have hpre : first <+: f := by
        have key : ∀ cs : List Byte, (rawLines cs).headD [] <+: cs := by
          intro cs
          induction cs with
          | nil => simp [rawLines]
          | cons c cs ih =>
            by_cases hc : c = LF
            · simp [rawLines, hc]
            · rw [rawLines_cons_of_ne c cs hc]
              simpa using ih
        have := key f
        rwa [hr] at this
      have hfirst : ¬ BOM <+: first := fun h => hf (h.trans hpre)
      have hpop : popTrailingCR (BOM ++ first) = BOM ++ popTrailingCR first := by
        unfold popTrailingCR
        cases first using List.reverseRecOn with
        | nil => simp [BOM, CR]
        | append_singleton init a =>
          rw [← List.append_assoc, List.getLast?_concat, List.getLast?_concat]
          by_cases ha : a = CR
          · simp [ha, List.dropLast_concat]
          · simp [ha]
      have hpop2 : ¬ BOM <+: popTrailingCR first := by
        intro h
        apply hfirst
        unfold popTrailingCR at h
        split at h
        · exact h.trans (List.dropLast_prefix first)
        · exact h
      have htrim : trimLines (popTrailingCR (BOM ++ first) :: rest.map popTrailingCR)
          = trimLines (popTrailingCR first :: rest.map popTrailingCR) := by
        simp only [trimLines, hpop, removeBom_append,
          (removeBom_eq_self_iff (popTrailingCR first)).mpr hpop2]
      unfold finishLines
      rw [htrim]
  · intro i hi hlt
    rw [loadLines_eq] at hlt ⊢
    rw [finishLines_getElem? _ i hi hlt, List.getElem?_map]

/-- C9 on the two-line content `"a\n" ++ BOM ++ "b"`: a byte order mark put in
front of the content is removed, the one that starts the second line stays. -/
theorem C9_bom_first_line_only_at_two_lines :
    loadLines (BOM ++ [97, 10, 239, 187, 191, 98]) = loadLines [97, 10, 239, 187, 191, 98] ∧
      (loadLines [97, 10, 239, 187, 191, 98])[1]?
        = ((rawLines [97, 10, 239, 187, 191, 98])[1]?).map popTrailingCR ∧
      (loadLines [97, 10, 239, 187, 191, 98])[1]? = some [239, 187, 191, 98] :=
  ⟨(C9_bom_first_line_only [97, 10, 239, 187, 191, 98]).1 (by decide),
    (C9_bom_first_line_only [97, 10, 239, 187, 191, 98]).2 1 (by decide)
      (by rw [loadLines_eq]; decide),
    by rw [loadLines_eq]; decide⟩

/-! ## C10: the error sentinel and the non-empty buffer -/

/-- C10: when the base class leaves `m_retVal` different from -1, the
constructor sets `m_retVal` to -1 exactly when the file cannot be opened, and
for every file that can be opened the line buffer it builds is not empty. -/
theorem C10_construct_error_or_nonempty (tabs : Line → Line) (retVal0 clip0 : Int)
    (file : Option (List Byte)) (hret : retVal0 ≠ -1) :
    ((TextViewer.construct tabs retVal0 clip0 file).m_retVal = -1 ↔ file = none) ∧
      (∀ content, file = some content →
        (TextViewer.construct tabs retVal0 clip0 file).lines_ ≠ []) := by
  constructor
  · cases file with
    | none => simp [TextViewer.construct]
    | some content => simpa [TextViewer.construct, TextViewer.initial] using hret
  · intro content hc
    subst hc
    rw [construct_lines]
    exact loadLines_ne_nil content

/-- C10 on a file that holds only a byte order mark and a line terminator, and
on a file that cannot be opened. -/
theorem C10_construct_error_or_nonempty_at_bom_crlf :
    (TextViewer.construct id 0 0 (some (BOM ++ [CR, LF]))).m_retVal ≠ -1 ∧
      (TextViewer.construct id 0 0 (some (BOM ++ [CR, LF]))).lines_ ≠ [] ∧
      (TextViewer.construct id 0 0 none).m_retVal = -1 :=
  ⟨fun h => Option.noConfusion
      (((C10_construct_error_or_nonempty id 0 0 (some (BOM ++ [CR, LF])) (by decide)).1).mp h),
    (C10_construct_error_or_nonempty id 0 0 (some (BOM ++ [CR, LF])) (by decide)).2 _ rfl,
    ((C10_construct_error_or_nonempty id 0 0 none (by decide)).1).mpr rfl⟩


/-! ## The buffers and the cursor in reachable states -/

theorem wrap_le (i : Int) (h : 0 ≤ i) : (wrap i : Int) ≤ i := by
  simp only [wrap, SIZE_MOD]
  omega

theorem wrap_eq (i : Int) (h0 : 0 ≤ i) (h1 : i < SIZE_MOD) : (wrap i : Int) = i := by
  simp only [wrap, SIZE_MOD] at *
  omega

namespace TextViewer

theorem scrollToCursorBelow_fields (screen : Screen) (self : TextViewer) :
    (scrollToCursorBelow screen self).lines_ = self.lines_ ∧
      (scrollToCursorBelow screen self).lines_for_display_ = self.lines_for_display_ ∧
      (scrollToCursorBelow screen self).current_line_ = self.current_line_ ∧
      (scrollToCursorBelow screen self).clip_x = self.clip_x ∧
      (scrollToCursorBelow screen self).m_retVal = self.m_retVal := by
  unfold scrollToCursorBelow
  split <;> simp

theorem cursorInBounds_construct (tabs : Line → Line) (retVal0 clip0 : Int)
    (content : List Byte) : (construct tabs retVal0 clip0 (some content)).CursorInBounds := by
  refine ⟨by simp [construct], ?_⟩
  have := List.length_pos.mpr (loadLines_ne_nil content)
  simpa [construct, initial] using this

theorem cursorInBounds_scrollToCursorBelow (screen : Screen) (self : TextViewer)
    (h : self.CursorInBounds) : (scrollToCursorBelow screen self).CursorInBounds := by
  obtain ⟨h1, h2, h3, -, -⟩ := scrollToCursorBelow_fields screen self
  unfold CursorInBounds
  rw [h1, h2, h3]
  exact h

theorem moveUp_fields (self : TextViewer) (step : Nat) :
    (self.moveUp step).2.lines_ = self.lines_ ∧
      (self.moveUp step).2.lines_for_display_ = self.lines_for_display_ ∧
      (self.moveUp step).2.clip_x = self.clip_x ∧
      (self.moveUp step).2.m_retVal = self.m_retVal ∧
      (self.moveUp step).2.current_line_ = self.current_line_ - step := by
  unfold moveUp
  simp only
  by_cases h0 : self.current_line_ > 0
  · by_cases hs : self.current_line_ ≥ step
    · simp only [h0, hs, if_true]
      split <;> simp
    · simp only [h0, hs, if_true, if_false]
      split <;> simp <;> omega
  · simp only [h0, if_false]
    split <;> simp <;> omega

theorem cursorInBounds_moveUp (self : TextViewer) (step : Nat) (h : self.CursorInBounds) :
    (self.moveUp step).2.CursorInBounds := by
  obtain ⟨hl, hc⟩ := h
  obtain ⟨h1, h2, -, -, h3⟩ := moveUp_fields self step
  unfold CursorInBounds
  rw [h1, h2, h3]
  exact ⟨hl, by omega⟩

theorem cursorInBounds_moveDown (screen : Screen) (self : TextViewer) (step : Nat)
    (h : self.CursorInBounds) : (self.moveDown screen step).2.CursorInBounds := by
  unfold moveDown
  split
  · exact h
  · apply cursorInBounds_scrollToCursorBelow
    obtain ⟨hl, hc⟩ := h
    unfold CursorInBounds
    split
    · refine ⟨hl, ?_⟩
      simp only
      have := wrap_le ((self.lines_.length : Int) - 1) (by omega)
      omega
    · exact ⟨hl, hc⟩

theorem cursorInBounds_moveLeft (screen : Screen) (self : TextViewer)
    (h : self.CursorInBounds) : (self.moveLeft screen).2.CursorInBounds := by
  unfold moveLeft
  split
  · split <;> exact h
  · exact h

theorem cursorInBounds_moveRight (screen : Screen) (self : TextViewer)
    (h : self.CursorInBounds) : (self.moveRight screen).2.CursorInBounds := h

theorem cursorInBounds_handleEditLine (tabs : Line → Line) (self : TextViewer)
    (ui : DialogInput) (h : self.CursorInBounds) :
    (handleEditLine tabs self ui).CursorInBounds := by
  unfold handleEditLine
  split
  · simpa [CursorInBounds] using h
  · exact h

theorem cursorInBounds_handleDuplicateLine (screen : Screen) (self : TextViewer)
    (h : self.CursorInBounds) : (handleDuplicateLine screen self).CursorInBounds := by
  obtain ⟨hl, hc⟩ := h
  unfold handleDuplicateLine CursorInBounds
  simp only
  split <;>
    simp only [List.length_insertIdx _ _ (show self.current_line_ + 1 ≤ self.lines_.length by omega),
      List.length_insertIdx _ _
        (show self.current_line_ + 1 ≤ self.lines_for_display_.length by omega)] <;>
    omega

theorem cursorInBounds_handleInsertLineAfter (screen : Screen) (self : TextViewer)
    (h : self.CursorInBounds) : (handleInsertLineAfter screen self).CursorInBounds := by
  obtain ⟨hl, hc⟩ := h
  unfold handleInsertLineAfter CursorInBounds
  simp only
  split <;>
    simp only [List.length_insertIdx _ _ (show self.current_line_ + 1 ≤ self.lines_.length by omega),
      List.length_insertIdx _ _
        (show self.current_line_ + 1 ≤ self.lines_for_display_.length by omega)] <;>
    omega

theorem cursorInBounds_handleInsertLineBefore (self : TextViewer)
    (h : self.CursorInBounds) : (handleInsertLineBefore self).CursorInBounds := by
  obtain ⟨hl, hc⟩ := h
  have hw := wrap_le ((self.current_line_ : Int) + 1) (by omega)
  unfold handleInsertLineBefore CursorInBounds
  simp only
  split <;>
    simp only [List.length_insertIdx _ _ (show self.current_line_ ≤ self.lines_.length by omega),
      List.length_insertIdx _ _
        (show self.current_line_ ≤ self.lines_for_display_.length by omega)] <;>
    omega

theorem cursorInBounds_handleRemoveLine (self : TextViewer)
    (h : self.CursorInBounds) : (handleRemoveLine self).CursorInBounds := by
  obtain ⟨hl, hc⟩ := h
  unfold handleRemoveLine CursorInBounds
  simp only [List.isEmpty_eq_true]
  have he1 : (self.lines_.eraseIdx self.current_line_).length = self.lines_.length - 1 := by
    rw [List.length_eraseIdx, if_pos hc]
  have he2 : (self.lines_for_display_.eraseIdx self.current_line_).length
      = self.lines_.length - 1 := by
    rw [List.length_eraseIdx, if_pos (by omega), hl]
  by_cases hemp : self.lines_.eraseIdx self.current_line_ = []
  · have h0 : self.lines_.length - 1 = 0 := by rw [← he1, hemp]; rfl
    have hd : self.lines_for_display_.eraseIdx self.current_line_ = [] :=
      List.length_eq_zero.mp (by omega)
    simp only [hemp, hd, if_true, List.nil_append, List.length_singleton]
    split <;> simp <;> omega
  · have hpos : 0 < self.lines_.length - 1 := by
      rw [← he1]
      exact List.length_pos.mpr hemp
    simp only [hemp, if_false, he1, he2]
    split
    · rename_i heq
      have := wrap_le ((self.current_line_ : Int) - 1) (by omega)
      simp only
      omega
    · rename_i hneq
      simp only
      omega

theorem cursorInBounds_editLine (tabs : Line → Line) (screen : Screen) (self : TextViewer)
    (ui : DialogInput) (h : self.CursorInBounds) :
    (self.editLine tabs screen ui).2.CursorInBounds := by
  unfold editLine
  split
  · exact cursorInBounds_handleEditLine tabs self ui h
  split
  · exact cursorInBounds_handleDuplicateLine screen self h
  split
  · exact cursorInBounds_handleInsertLineBefore self h
  split
  · exact cursorInBounds_handleInsertLineAfter screen self h
  split
  · exact cursorInBounds_handleRemoveLine self h
  · exact h

theorem getLineAt_ne (screen : Screen) (self : TextViewer) (x y : Int)
    (h : getLineAt screen self x y ≠ -1) :
    wrap (self.first_line_ + getLineAt screen self x y) < self.lines_.length := by
  unfold getLineAt at h ⊢
  split at h
  · exact absurd rfl h
  · split at h
    · exact absurd rfl h
    · rename_i h1 h2
      rw [if_neg h1, if_neg h2]
      omega

theorem cursorInBounds_mouseDown (tabs : Line → Line) (screen : Screen) (self : TextViewer)
    (button : MouseButton) (x y : Int) (ui : DialogInput) (h : self.CursorInBounds) :
    (self.mouseDown tabs screen button x y ui).2.CursorInBounds := by
  unfold mouseDown
  cases button with
  | left =>
    simp only
    split
    · rename_i hline
      have hlt := getLineAt_ne screen self x y hline
      split
      · exact cursorInBounds_editLine tabs screen self ui h
      · split
        · exact ⟨h.1, hlt⟩
        · exact ⟨h.1, hlt⟩
    · exact h
  | right => exact h
  | x1 => exact h
  | other => exact h

theorem cursorInBounds_perform (tabs : Line → Line) (screen : Screen) (self : TextViewer)
    (event : Event) (h : self.CursorInBounds) :
    (self.perform tabs screen event).CursorInBounds := by
  cases event with
  | moveUp step => exact cursorInBounds_moveUp self step h
  | moveDown step => exact cursorInBounds_moveDown screen self step h
  | moveLeft => exact cursorInBounds_moveLeft screen self h
  | moveRight => exact cursorInBounds_moveRight screen self h
  | mouseDown x y ui => exact cursorInBounds_mouseDown tabs screen self .left x y ui h
  | onResize => exact cursorInBounds_scrollToCursorBelow screen self h
  | editLine ui => exact cursorInBounds_editLine tabs screen self ui h

end TextViewer

theorem Reachable.cursorInBounds {tabs : Line → Line} {self : TextViewer}
    (h : Reachable tabs self) : self.CursorInBounds := by
  induction h with
  | construct retVal0 clip0 content =>
    exact TextViewer.cursorInBounds_construct tabs retVal0 clip0 content
  | perform screen event _ ih => exact TextViewer.cursorInBounds_perform tabs screen _ event ih

theorem Reachable.performAll {tabs : Line → Line} (screen : Screen) (events : List Event) :
    ∀ {self : TextViewer}, Reachable tabs self →
      Reachable tabs (self.performAll tabs screen events) := by
  induction events with
  | nil => exact fun h => h
  | cons event rest ih => exact fun h => ih (Reachable.perform screen event h)


/-! ## C1 and C2: the buffers and the cursor in every reachable state -/

/-- C1: in every state reachable from a successful construction by movement
operations, primary clicks, resizes and line actions, the display buffer has the
length of the line buffer. -/
theorem C1_display_length_eq (tabs : Line → Line) (self : TextViewer)
    (h : Reachable tabs self) : self.lines_for_display_.length = self.lines_.length :=
  h.cursorInBounds.1

/-- C1 on the state reached from the file `"a\nb"` by a move down, a duplicate,
a click, a resize, an insert before, an edit and a remove. -/
theorem C1_display_length_eq_at_trace :
    Reachable id
        ((TextViewer.construct id 0 0 (some [97, 10, 98])).performAll id ⟨56, 1, 1⟩
          [.moveDown 1, .editLine ⟨2, 0, []⟩, .mouseDown 0 20 ⟨0, 0, []⟩, .onResize,
            .editLine ⟨3, 0, []⟩, .editLine ⟨1, 1, [9, 120]⟩, .editLine ⟨5, 0, []⟩]) ∧
      ((TextViewer.construct id 0 0 (some [97, 10, 98])).performAll id ⟨56, 1, 1⟩
          [.moveDown 1, .editLine ⟨2, 0, []⟩, .mouseDown 0 20 ⟨0, 0, []⟩, .onResize,
            .editLine ⟨3, 0, []⟩, .editLine ⟨1, 1, [9, 120]⟩,
            .editLine ⟨5, 0, []⟩]).lines_for_display_.length
        = ((TextViewer.construct id 0 0 (some [97, 10, 98])).performAll id ⟨56, 1, 1⟩
          [.moveDown 1, .editLine ⟨2, 0, []⟩, .mouseDown 0 20 ⟨0, 0, []⟩, .onResize,
            .editLine ⟨3, 0, []⟩, .editLine ⟨1, 1, [9, 120]⟩,
            .editLine ⟨5, 0, []⟩]).lines_.length :=
  ⟨Reachable.performAll _ _ (Reachable.construct 0 0 _),
    C1_display_length_eq id _ (Reachable.performAll _ _ (Reachable.construct 0 0 _))⟩

/-- C2: in every state reachable from a successful construction by `moveUp`,
`moveDown`, primary clicks and line actions (and the other operations), the
cursor is an index of the line buffer, so the line buffer is not empty, and it
is an index of the display buffer as well. -/
theorem C2_cursor_in_bounds (tabs : Line → Line) (self : TextViewer)
    (h : Reachable tabs self) :
    self.current_line_ < self.lines_.length ∧ self.lines_ ≠ [] ∧
      self.current_line_ < self.lines_for_display_.length := by
  obtain ⟨hl, hc⟩ := h.cursorInBounds
  refine ⟨hc, ?_, by omega⟩
  intro e
  rw [e] at hc
  simp at hc

/-- C2 on the state reached from the one-line file `"a"` by a remove, a move
down, a click far below the text and an insert before. -/
theorem C2_cursor_in_bounds_at_trace :
    Reachable id
        ((TextViewer.construct id 0 0 (some [97])).performAll id ⟨240, 1, 1⟩
          [.editLine ⟨5, 0, []⟩, .moveDown 16, .mouseDown 3 4000 ⟨0, 0, []⟩,
            .editLine ⟨3, 0, []⟩]) ∧
      ((TextViewer.construct id 0 0 (some [97])).performAll id ⟨240, 1, 1⟩
          [.editLine ⟨5, 0, []⟩, .moveDown 16, .mouseDown 3 4000 ⟨0, 0, []⟩,
            .editLine ⟨3, 0, []⟩]).current_line_
        < ((TextViewer.construct id 0 0 (some [97])).performAll id ⟨240, 1, 1⟩
          [.editLine ⟨5, 0, []⟩, .moveDown 16, .mouseDown 3 4000 ⟨0, 0, []⟩,
            .editLine ⟨3, 0, []⟩]).lines_.length :=
  ⟨Reachable.performAll _ _ (Reachable.construct 0 0 _),
    (C2_cursor_in_bounds id _ (Reachable.performAll _ _ (Reachable.construct 0 0 _))).1⟩

/-! ## C6: the remove-line action -/

/-- C6: the remove-line action on a buffer of `n` lines (below `2 ^ 64`) with the
cursor `c < n` and buffers of equal length: for `n = 1` both buffers become one
empty line and the cursor is 0; for `n ≥ 2` both buffers lose exactly the entry
at index `c` and the cursor becomes `min c (n - 2)`. -/
theorem C6_remove_line (tabs : Line → Line) (screen : Screen) (self : TextViewer)
    (ui : DialogInput) (hui : ui.dialog_result = 5)
    (hlen : self.lines_for_display_.length = self.lines_.length)
    (hc : self.current_line_ < self.lines_.length)
    (hn : self.lines_.length < 18446744073709551616) :
    (self.lines_.length = 1 →
        (self.editLine tabs screen ui).2.lines_ = [[]] ∧
        (self.editLine tabs screen ui).2.lines_for_display_ = [[]] ∧
        (self.editLine tabs screen ui).2.current_line_ = 0) ∧
      (2 ≤ self.lines_.length →
        (self.editLine tabs screen ui).2.lines_
          = self.lines_.take self.current_line_ ++ self.lines_.drop (self.current_line_ + 1) ∧
        (self.editLine tabs screen ui).2.lines_for_display_
          = self.lines_for_display_.take self.current_line_
              ++ self.lines_for_display_.drop (self.current_line_ + 1) ∧
        (self.editLine tabs screen ui).2.current_line_
          = min self.current_line_ (self.lines_.length - 2)) := by
  have hed : (self.editLine tabs screen ui).2 = TextViewer.handleRemoveLine self := by
    simp [TextViewer.editLine, hui]
  rw [hed]
  have he1 : (self.lines_.eraseIdx self.current_line_).length = self.lines_.length - 1 := by
    rw [List.length_eraseIdx, if_pos hc]
  have he2 : (self.lines_for_display_.eraseIdx self.current_line_).length
      = self.lines_.length - 1 := by
    rw [List.length_eraseIdx, if_pos (by omega), hlen]
  constructor
  · intro h1
    have hemp : self.lines_.eraseIdx self.current_line_ = [] :=
      List.length_eq_zero.mp (by omega)
    have hd : self.lines_for_display_.eraseIdx self.current_line_ = [] :=
      List.length_eq_zero.mp (by omega)
    have hc0 : self.current_line_ = 0 := by omega
    unfold TextViewer.handleRemoveLine
    rw [hemp, hd, hc0]
    simp
  · intro h2
    have hemp : self.lines_.eraseIdx self.current_line_ ≠ [] := by
      intro e
      rw [e] at he1
      simp at he1
      omega
    unfold TextViewer.handleRemoveLine
    simp only [List.isEmpty_eq_true, hemp, if_false, he1]
    rw [← List.eraseIdx_eq_take_drop_succ, ← List.eraseIdx_eq_take_drop_succ]
    split
    · rename_i heq
      have := wrap_eq ((self.current_line_ : Int) - 1) (by omega)
        (by simp only [SIZE_MOD]; omega)
      refine ⟨rfl, rfl, ?_⟩
      simp only
      omega
    · rename_i hneq
      refine ⟨rfl, rfl, ?_⟩
      simp only
      omega

/-- C6 on the one-line buffer `["a"]` and on the last line of `["a", "b", "c"]`. -/
theorem C6_remove_line_at_examples :
    (({ lines_ := [[97]], lines_for_display_ := [[97]], first_line_ := 0, current_line_ := 0,
          clip_x := 0, m_retVal := 0 } : TextViewer).editLine id ⟨240, 1, 1⟩ ⟨5, 0, []⟩).2.lines_
        = [[]] ∧
      (({ lines_ := [[97], [98], [99]], lines_for_display_ := [[97], [98], [99]],
          first_line_ := 0, current_line_ := 2, clip_x := 0, m_retVal := 0 }
          : TextViewer).editLine id ⟨240, 1, 1⟩ ⟨5, 0, []⟩).2.current_line_ = min 2 (3 - 2) :=
  ⟨((C6_remove_line id ⟨240, 1, 1⟩ _ ⟨5, 0, []⟩ rfl (by decide) (by decide) (by decide)).1
      (by decide)).1,
    ((C6_remove_line id ⟨240, 1, 1⟩ _ ⟨5, 0, []⟩ rfl (by decide) (by decide) (by decide)).2
      (by decide)).2.2⟩

/-! ## C8: the cursor arithmetic of vertical movement -/

namespace TextViewer

theorem moveDown_fields (screen : Screen) (self : TextViewer) (step : Nat) :
    (self.moveDown screen step).2.lines_ = self.lines_ ∧
      (self.moveDown screen step).2.lines_for_display_ = self.lines_for_display_ ∧
      (self.moveDown screen step).2.clip_x = self.clip_x ∧
      (self.moveDown screen step).2.m_retVal = self.m_retVal := by
  unfold moveDown
  split
  · simp
  · obtain ⟨h1, h2, -, h4, h5⟩ := scrollToCursorBelow_fields screen
      (if wrap (self.current_line_ + 1) < self.lines_.length then
        { self with
          current_line_ :=
            min (wrap (self.current_line_ + step)) (wrap (self.lines_.length - 1)) }
      else self)
    simp only [h1, h2, h4, h5]
    split <;> simp

theorem moveDown_current_line (screen : Screen) (self : TextViewer) (step : Nat)
    (hc : self.current_line_ < self.lines_.length)
    (hn : self.lines_.length < 18446744073709551616)
    (hs : self.current_line_ + step < 18446744073709551616) :
    (self.moveDown screen step).2.current_line_
      = min (self.current_line_ + step) (self.lines_.length - 1) := by
  have hne : self.lines_.isEmpty = false := by
    cases hl : self.lines_ with
    | nil => rw [hl] at hc; simp at hc
    | cons a t => rfl
  have h1 := wrap_eq ((self.current_line_ : Int) + 1) (by omega) (by simp only [SIZE_MOD]; omega)
  have h2 := wrap_eq ((self.current_line_ : Int) + step) (by omega)
    (by simp only [SIZE_MOD]; omega)
  have h3 := wrap_eq ((self.lines_.length : Int) - 1) (by omega) (by simp only [SIZE_MOD]; omega)
  unfold moveDown
  simp only [hne, Bool.false_eq_true, if_false]
  rw [(scrollToCursorBelow_fields screen _).2.2.1]
  split
  · simp only
    omega
  · omega

end TextViewer

/-- C8: for a cursor `c` in a buffer of `n` lines and a step `s` without machine
overflow, `moveDown s` sets the cursor to `min (c + s) (n - 1)` and `moveUp s`
to `max (c - s) 0`; the Up and Down keys move by 1 and, for a viewport of at
least one line, Page Up and Page Down by `numFullViewportLines() - 1`; and `k`
presses of Down after the construction leave the cursor at `min k (n - 1)`. -/
theorem C8_cursor_arithmetic (tabs : Line → Line) (screen : Screen) (self : TextViewer)
    (step : Nat) (ui : DialogInput)
    (hc : self.current_line_ < self.lines_.length)
    (hn : self.lines_.length < 18446744073709551616)
    (hs : self.current_line_ + step < 18446744073709551616)
    (hV : 1 ≤ numFullViewportLines screen)
    (hV32 : numFullViewportLines screen ≤ 4294967296) :
    (self.moveDown screen step).2.current_line_
        = min (self.current_line_ + step) (self.lines_.length - 1) ∧
      ((self.moveUp step).2.current_line_ : Int) = max ((self.current_line_ : Int) - step) 0 ∧
      self.keyPress tabs screen .up ui = self.moveUp 1 ∧
      self.keyPress tabs screen .down ui = self.moveDown screen 1 ∧
      self.keyPress tabs screen .pageUp ui
        = self.moveUp (numFullViewportLines screen - 1).toNat ∧
      self.keyPress tabs screen .pageDown ui
        = self.moveDown screen (numFullViewportLines screen - 1).toNat ∧
      (∀ (retVal0 clip0 : Int) (content : List Byte) (k : Nat),
        (loadLines content).length < 18446744073709551616 →
        ((fun s : TextViewer => (s.keyPress tabs screen .down ui).2)^[k]
            (TextViewer.construct tabs retVal0 clip0 (some content))).current_line_
          = min k ((loadLines content).length - 1)) := by
  have hstep : toUnsigned (numFullViewportLines screen - 1)
      = (numFullViewportLines screen - 1).toNat := by
    simp only [toUnsigned]
    omega
  refine ⟨TextViewer.moveDown_current_line screen self step hc hn hs, ?_, rfl, rfl, ?_, ?_, ?_⟩
  · rw [(TextViewer.moveUp_fields self step).2.2.2.2]
    omega
  · simp only [TextViewer.keyPress, hstep]
  · simp only [TextViewer.keyPress, hstep]
  · intro retVal0 clip0 content k hlen
    have hpos := List.length_pos.mpr (loadLines_ne_nil content)
    have key : ∀ k : Nat,
        ((fun s : TextViewer => (s.keyPress tabs screen .down ui).2)^[k]
            (TextViewer.construct tabs retVal0 clip0 (some content))).lines_ = loadLines content ∧
        ((fun s : TextViewer => (s.keyPress tabs screen .down ui).2)^[k]
            (TextViewer.construct tabs retVal0 clip0 (some content))).current_line_
          = min k ((loadLines content).length - 1) := by
      intro k
      induction k with
      | zero => exact ⟨rfl, by simp [TextViewer.construct, TextViewer.initial]⟩
      | succ k ih =>
        rw [Function.iterate_succ_apply']
        obtain ⟨ih1, ih2⟩ := ih
        generalize ((fun s : TextViewer => (s.keyPress tabs screen .down ui).2)^[k]
            (TextViewer.construct tabs retVal0 clip0 (some content))) = st at ih1 ih2 ⊢
        show (st.moveDown screen 1).2.lines_ = loadLines content ∧
          (st.moveDown screen 1).2.current_line_ = min (k + 1) ((loadLines content).length - 1)
        refine ⟨by rw [(TextViewer.moveDown_fields screen _ 1).1, ih1], ?_⟩
        rw [TextViewer.moveDown_current_line screen _ 1 (by rw [ih1, ih2]; omega)
          (by rw [ih1]; exact hlen) (by rw [ih2]; omega), ih1, ih2]
        omega
    exact (key k).2

/-- C8 on the file `"a\nb\nc\n"` under a 240 pixel high screen: two presses of
Down leave the cursor at 2 and a third changes nothing; from the cursor 1 of a
three-line buffer `moveDown 5` gives 2 and `moveUp 5` gives 0. -/
theorem C8_cursor_arithmetic_at_abc :
    ((fun s : TextViewer => (s.keyPress id ⟨240, 1, 1⟩ .down ⟨0, 0, []⟩).2)^[2]
        (TextViewer.construct id 0 0 (some [97, 10, 98, 10, 99, 10]))).current_line_
        = min 2 ((loadLines [97, 10, 98, 10, 99, 10]).length - 1) ∧
      ((fun s : TextViewer => (s.keyPress id ⟨240, 1, 1⟩ .down ⟨0, 0, []⟩).2)^[3]
        (TextViewer.construct id 0 0 (some [97, 10, 98, 10, 99, 10]))).current_line_
        = min 3 ((loadLines [97, 10, 98, 10, 99, 10]).length - 1) ∧
      (loadLines [97, 10, 98, 10, 99, 10]).length - 1 = 2 ∧
      (({ lines_ := [[97], [98], [99]], lines_for_display_ := [[97], [98], [99]],
          first_line_ := 0, current_line_ := 1, clip_x := 0, m_retVal := 0 }
          : TextViewer).moveDown ⟨240, 1, 1⟩ 5).2.current_line_ = min (1 + 5) (3 - 1) :=
  have hlen : (loadLines [97, 10, 98, 10, 99, 10]).length = 3 := by
    rw [loadLines_eq]
    decide
  have h := C8_cursor_arithmetic id ⟨240, 1, 1⟩
    { lines_ := [[97], [98], [99]], lines_for_display_ := [[97], [98], [99]],
      first_line_ := 0, current_line_ := 1, clip_x := 0, m_retVal := 0 } 5 ⟨0, 0, []⟩
    (by decide) (by decide) (by decide) (by decide) (by decide)
  ⟨h.2.2.2.2.2.2 0 0 [97, 10, 98, 10, 99, 10] 2 (by rw [hlen]; decide),
    h.2.2.2.2.2.2 0 0 [97, 10, 98, 10, 99, 10] 3 (by rw [hlen]; decide),
    by rw [hlen],
    h.1⟩

/-! ## C4 and C5: the scroll window after edits -/

theorem construct_abcd :
    TextViewer.construct id 0 0 (some [97, 10, 98, 10, 99, 10, 100, 10])
      = { lines_ := [[97], [98], [99], [100]], lines_for_display_ := [[97], [98], [99], [100]],
          first_line_ := 0, current_line_ := 0, clip_x := 0, m_retVal := 0 } := by
  simp only [TextViewer.construct, TextViewer.initial, loadLines_eq]
  decide

theorem construct_abc :
    TextViewer.construct id 0 0 (some [97, 10, 98, 10, 99, 10])
      = { lines_ := [[97], [98], [99]], lines_for_display_ := [[97], [98], [99]],
          first_line_ := 0, current_line_ := 0, clip_x := 0, m_retVal := 0 } := by
  simp only [TextViewer.construct, TextViewer.initial, loadLines_eq]
  decide

/-- C4 fails on the code. Under a viewport of three full lines, the file
`"a\nb\nc\nd\n"` after three Down and three remove-line actions is in a state
where `moveDown 1` leaves the scroll offset 1 above `maxFirstLine() = 0` and the
cursor 0 above the window; and the file `"a\nb\nc\n"` after two Down and two
insert-before actions is in a state where `moveUp 1` leaves the cursor 3 below
the window `[0, 2]`. -/
theorem C4_cursor_outside_window_after_move :
    numFullViewportLines ⟨56, 1, 1⟩ = 3 ∧
      Reachable id
        ((TextViewer.construct id 0 0 (some [97, 10, 98, 10, 99, 10, 100, 10])).performAll id
          ⟨56, 1, 1⟩
          [.moveDown 1, .moveDown 1, .moveDown 1, .editLine ⟨5, 0, []⟩, .editLine ⟨5, 0, []⟩,
            .editLine ⟨5, 0, []⟩]) ∧
      ((TextViewer.construct id 0 0 (some [97, 10, 98, 10, 99, 10, 100, 10])).performAll id
          ⟨56, 1, 1⟩
          [.moveDown 1, .moveDown 1, .moveDown 1, .editLine ⟨5, 0, []⟩, .editLine ⟨5, 0, []⟩,
            .editLine ⟨5, 0, []⟩, .moveDown 1])
        = { lines_ := [[97]], lines_for_display_ := [[97]], first_line_ := 1,
            current_line_ := 0, clip_x := 0, m_retVal := 0 } ∧
      TextViewer.maxFirstLine ⟨56, 1, 1⟩
          { lines_ := [[97]], lines_for_display_ := [[97]], first_line_ := 1,
            current_line_ := 0, clip_x := 0, m_retVal := 0 } = 0 ∧
      Reachable id
        ((TextViewer.construct id 0 0 (some [97, 10, 98, 10, 99, 10])).performAll id ⟨56, 1, 1⟩
          [.moveDown 1, .moveDown 1, .editLine ⟨3, 0, []⟩, .editLine ⟨3, 0, []⟩]) ∧
      ((TextViewer.construct id 0 0 (some [97, 10, 98, 10, 99, 10])).performAll id ⟨56, 1, 1⟩
          [.moveDown 1, .moveDown 1, .editLine ⟨3, 0, []⟩, .editLine ⟨3, 0, []⟩, .moveUp 1])
        = { lines_ := [[97], [98], [], [], [99]], lines_for_display_ := [[97], [98], [], [], [99]],
            first_line_ := 0, current_line_ := 3, clip_x := 0, m_retVal := 0 } := by
  refine ⟨by decide, Reachable.performAll _ _ (Reachable.construct 0 0 _), ?_, by decide,
    Reachable.performAll _ _ (Reachable.construct 0 0 _), ?_⟩
  · rw [construct_abcd]
    decide
  · rw [construct_abc]
    decide

/-- C5 fails on the code. Under a viewport of three full lines, the file
`"a\nb\nc\nd\n"` after three Down and three remove-line actions has the cursor
on line 0 and the scroll offset 1, and `moveUp 1` returns false but sets the
scroll offset to 0; the file `"a\nb\nc\n"` after two Down and one insert-before
action has the cursor on the last line 3 and the scroll offset 0, and
`moveDown 1` returns false but sets the scroll offset to 1. -/
theorem C5_boundary_move_changes_scroll :
    Reachable id
        ((TextViewer.construct id 0 0 (some [97, 10, 98, 10, 99, 10, 100, 10])).performAll id
          ⟨56, 1, 1⟩
          [.moveDown 1, .moveDown 1, .moveDown 1, .editLine ⟨5, 0, []⟩, .editLine ⟨5, 0, []⟩,
            .editLine ⟨5, 0, []⟩]) ∧
      ((TextViewer.construct id 0 0 (some [97, 10, 98, 10, 99, 10, 100, 10])).performAll id
          ⟨56, 1, 1⟩
          [.moveDown 1, .moveDown 1, .moveDown 1, .editLine ⟨5, 0, []⟩, .editLine ⟨5, 0, []⟩,
            .editLine ⟨5, 0, []⟩])
        = { lines_ := [[97]], lines_for_display_ := [[97]], first_line_ := 1,
            current_line_ := 0, clip_x := 0, m_retVal := 0 } ∧
      TextViewer.moveUp
          { lines_ := [[97]], lines_for_display_ := [[97]], first_line_ := 1,
            current_line_ := 0, clip_x := 0, m_retVal := 0 } 1
        = (false,
            { lines_ := [[97]], lines_for_display_ := [[97]], first_line_ := 0,
              current_line_ := 0, clip_x := 0, m_retVal := 0 }) ∧
      Reachable id
        ((TextViewer.construct id 0 0 (some [97, 10, 98, 10, 99, 10])).performAll id ⟨56, 1, 1⟩
          [.moveDown 1, .moveDown 1, .editLine ⟨3, 0, []⟩]) ∧
      ((TextViewer.construct id 0 0 (some [97, 10, 98, 10, 99, 10])).performAll id ⟨56, 1, 1⟩
          [.moveDown 1, .moveDown 1, .editLine ⟨3, 0, []⟩])
        = { lines_ := [[97], [98], [], [99]], lines_for_display_ := [[97], [98], [], [99]],
            first_line_ := 0, current_line_ := 3, clip_x := 0, m_retVal := 0 } ∧
      TextViewer.moveDown ⟨56, 1, 1⟩
          { lines_ := [[97], [98], [], [99]], lines_for_display_ := [[97], [98], [], [99]],
            first_line_ := 0, current_line_ := 3, clip_x := 0, m_retVal := 0 } 1
        = (false,
            { lines_ := [[97], [98], [], [99]], lines_for_display_ := [[97], [98], [], [99]],
              first_line_ := 1, current_line_ := 3, clip_x := 0, m_retVal := 0 }) := by
  refine ⟨Reachable.performAll _ _ (Reachable.construct 0 0 _), ?_, by decide,
    Reachable.performAll _ _ (Reachable.construct 0 0 _), ?_, by decide⟩
  · rw [construct_abcd]
    decide
  · rw [construct_abc]
    decide

/-! ## C11: a primary click on a visible line -/

/-- C11 fails on the code. Under a 60 pixel high screen (three full rows, a
fourth partly visible) a click at `y = 57` falls on row 3, the row just below
the last full row; on a five-line buffer with cursor and scroll offset 0,
`mouseDown` sets the cursor to 3 and leaves the scroll offset 0, because the
test `first_line_ + numFullViewportLines() < current_line_` is `3 < 3`. -/
theorem C11_click_below_fold_keeps_scroll :
    numFullViewportLines ⟨60, 1, 1⟩ = 3 ∧ numTotalViewportLines ⟨60, 1, 1⟩ = 4 ∧
      TextViewer.getLineAt ⟨60, 1, 1⟩
          { lines_ := [[97], [98], [99], [100], [101]],
            lines_for_display_ := [[97], [98], [99], [100], [101]],
            first_line_ := 0, current_line_ := 0, clip_x := 0, m_retVal := 0 } 10 57 = 3 ∧
      TextViewer.mouseDown id ⟨60, 1, 1⟩
          { lines_ := [[97], [98], [99], [100], [101]],
            lines_for_display_ := [[97], [98], [99], [100], [101]],
            first_line_ := 0, current_line_ := 0, clip_x := 0, m_retVal := 0 }
          .left 10 57 ⟨0, 0, []⟩
        = (true,
            { lines_ := [[97], [98], [99], [100], [101]],
              lines_for_display_ := [[97], [98], [99], [100], [101]],
              first_line_ := 0, current_line_ := 3, clip_x := 0, m_retVal := 0 }) := by
  decide

/-! ## C12: insert a blank line before the cursor -/

/-- C12 fails on the code. Under a viewport of three full lines, with the
cursor 2 on the last row of the window `[0, 2]` of the buffer `["a", "b", "c"]`,
the insert-before action gives `["a", "b", "", "c"]` with the cursor 3 and the
scroll offset still 0, so the cursor is below the window. -/
theorem C12_insert_before_leaves_window :
    numFullViewportLines ⟨56, 1, 1⟩ = 3 ∧
      TextViewer.CursorInWindow ⟨56, 1, 1⟩
          { lines_ := [[97], [98], [99]], lines_for_display_ := [[97], [98], [99]],
            first_line_ := 0, current_line_ := 2, clip_x := 0, m_retVal := 0 } ∧
      TextViewer.editLine id ⟨56, 1, 1⟩
          { lines_ := [[97], [98], [99]], lines_for_display_ := [[97], [98], [99]],
            first_line_ := 0, current_line_ := 2, clip_x := 0, m_retVal := 0 } ⟨3, 0, []⟩
        = (true,
            { lines_ := [[97], [98], [], [99]], lines_for_display_ := [[97], [98], [], [99]],
              first_line_ := 0, current_line_ := 3, clip_x := 0, m_retVal := 0 }) ∧
      ¬ TextViewer.CursorInWindow ⟨56, 1, 1⟩
          { lines_ := [[97], [98], [], [99]], lines_for_display_ := [[97], [98], [], [99]],
            first_line_ := 0, current_line_ := 3, clip_x := 0, m_retVal := 0 } := by
  refine ⟨by decide, ?_, by decide, ?_⟩
  · unfold TextViewer.CursorInWindow
    decide
  · unfold TextViewer.CursorInWindow
    decide

/-! ## C18: the truncation of the dialog title -/

/-- C18 fails on the code. A display line of 56 letters `a`, the two bytes
`C3 A9` of one character and three more letters is well-formed UTF-8 and 61
bytes long; byte 57 is a trail byte, so the test `!isTrailByte(title[len])`
fails, the title is cut at 57 bytes, inside the character, and the text before
`"..."` ends in the lead byte `C3`. When the character is one byte earlier,
byte 57 is a letter, the loop runs and removes the trail byte `A9` only, and
the text before `"..."` again ends in the lead byte. The last part is the whole
title `"Line 1: ..."` for the first line. -/
theorem C18_title_cut_inside_character :
    validUtf8 (List.replicate 56 97 ++ [195, 169] ++ List.replicate 3 97) = true ∧
      (List.replicate 56 97 ++ [195, 169] ++ List.replicate 3 97).length = 61 ∧
      truncateTitle (List.replicate 56 97 ++ [195, 169] ++ List.replicate 3 97)
        = List.replicate 56 97 ++ [195] ++ [46, 46, 46] ∧
      validUtf8 (List.replicate 56 97 ++ [195]) = false ∧
      validUtf8 (List.replicate 55 97 ++ [195, 169] ++ List.replicate 4 97) = true ∧
      truncateTitle (List.replicate 55 97 ++ [195, 169] ++ List.replicate 4 97)
        = List.replicate 55 97 ++ [195] ++ [46, 46, 46] ∧
      validUtf8 (List.replicate 55 97 ++ [195]) = false ∧
      TextViewer.dialogTitle
          { lines_ := [List.replicate 56 97 ++ [195, 169] ++ List.replicate 3 97],
            lines_for_display_ := [List.replicate 56 97 ++ [195, 169] ++ List.replicate 3 97],
            first_line_ := 0, current_line_ := 0, clip_x := 0, m_retVal := 0 }
        = [76, 105, 110, 101, 32, 49, 58, 32] ++ List.replicate 56 97 ++ [195]
            ++ [46, 46, 46] := by
  decide

/-! ## C15: horizontal scrolling -/

theorem map_insertIdx {α β : Type} (f : α → β) (a : α) (l : List α) :
    ∀ k : Nat, (l.insertIdx k a).map f = (l.map f).insertIdx k (f a) := by
  induction l with
  | nil =>
    intro k
    cases k <;> simp
  | cons x l ih =>
    intro k
    cases k with
    | zero => simp
    | succ k => simp [List.insertIdx_succ_cons, ih k]

theorem map_eraseIdx {α β : Type} (f : α → β) (l : List α) :
    ∀ k : Nat, (l.eraseIdx k).map f = (l.map f).eraseIdx k := by
  induction l with
  | nil => intro k; simp
  | cons x l ih =>
    intro k
    cases k with
    | zero => simp
    | succ k => simp [ih k]

namespace TextViewer

theorem displayInSync_handleEditLine (tabs : Line → Line) (self : TextViewer)
    (ui : DialogInput) (h : self.lines_for_display_ = self.lines_.map tabs) :
    (handleEditLine tabs self ui).lines_for_display_
      = (handleEditLine tabs self ui).lines_.map tabs := by
  unfold handleEditLine
  split
  · simp only [adjustLineForDisplay, h, List.map_set]
  · exact h

theorem displayInSync_handleDuplicateLine (tabs : Line → Line) (hT : tabs [] = [])
    (screen : Screen) (self : TextViewer) (h : self.lines_for_display_ = self.lines_.map tabs) :
    (handleDuplicateLine screen self).lines_for_display_
      = (handleDuplicateLine screen self).lines_.map tabs := by
  have hd : (self.lines_.map tabs).getD self.current_line_ []
      = tabs (self.lines_.getD self.current_line_ []) := by
    conv_lhs => rw [← hT]
    exact List.getD_map _ _ _
  unfold handleDuplicateLine
  simp only
  split <;> simp only [h, map_insertIdx, hd]

theorem displayInSync_handleInsertLineBefore (tabs : Line → Line) (hT : tabs [] = [])
    (self : TextViewer) (h : self.lines_for_display_ = self.lines_.map tabs) :
    (handleInsertLineBefore self).lines_for_display_
      = (handleInsertLineBefore self).lines_.map tabs := by
  unfold handleInsertLineBefore
  simp only
  split <;> simp only [h, map_insertIdx, hT]

theorem displayInSync_handleInsertLineAfter (tabs : Line → Line) (hT : tabs [] = [])
    (screen : Screen) (self : TextViewer) (h : self.lines_for_display_ = self.lines_.map tabs) :
    (handleInsertLineAfter screen self).lines_for_display_
      = (handleInsertLineAfter screen self).lines_.map tabs := by
  unfold handleInsertLineAfter
  simp only
  split <;> simp only [h, map_insertIdx, hT]

theorem displayInSync_handleRemoveLine (tabs : Line → Line) (hT : tabs [] = [])
    (self : TextViewer) (h : self.lines_for_display_ = self.lines_.map tabs) :
    (handleRemoveLine self).lines_for_display_ = (handleRemoveLine self).lines_.map tabs := by
  unfold handleRemoveLine
  simp only
  split <;> split <;>
    simp only [h, map_eraseIdx, List.map_append, List.map_cons, List.map_nil, hT]

theorem displayInSync_editLine (tabs : Line → Line) (hT : tabs [] = []) (screen : Screen)
    (self : TextViewer) (ui : DialogInput)
    (h : self.lines_for_display_ = self.lines_.map tabs) :
    (self.editLine tabs screen ui).2.lines_for_display_
      = (self.editLine tabs screen ui).2.lines_.map tabs := by
  unfold editLine
  split
  · exact displayInSync_handleEditLine tabs self ui h
  split
  · exact displayInSync_handleDuplicateLine tabs hT screen self h
  split
  · exact displayInSync_handleInsertLineBefore tabs hT self h
  split
  · exact displayInSync_handleInsertLineAfter tabs hT screen self h
  split
  · exact displayInSync_handleRemoveLine tabs hT self h
  · exact h

theorem mouseDown_buffers (tabs : Line → Line) (screen : Screen) (self : TextViewer)
    (x y : Int) (ui : DialogInput) :
    (self.mouseDown tabs screen .left x y ui).2 = (self.editLine tabs screen ui).2 ∨
      ((self.mouseDown tabs screen .left x y ui).2.lines_ = self.lines_ ∧
        (self.mouseDown tabs screen .left x y ui).2.lines_for_display_
          = self.lines_for_display_) := by
  unfold mouseDown
  simp only
  split
  · split
    · exact Or.inl rfl
    · split <;> exact Or.inr ⟨rfl, rfl⟩
  · exact Or.inr ⟨rfl, rfl⟩

theorem displayInSync_perform (tabs : Line → Line) (hT : tabs [] = []) (screen : Screen)
    (self : TextViewer) (event : Event) (h : self.lines_for_display_ = self.lines_.map tabs) :
    (self.perform tabs screen event).lines_for_display_
      = (self.perform tabs screen event).lines_.map tabs := by
  cases event with
  | moveUp step =>
    simp only [perform, (moveUp_fields self step).1, (moveUp_fields self step).2.1, h]
  | moveDown step =>
    simp only [perform, (moveDown_fields screen self step).1,
      (moveDown_fields screen self step).2.1, h]
  | moveLeft =>
    simp only [perform, moveLeft]
    split
    · split <;> exact h
    · exact h
  | moveRight => exact h
  | mouseDown x y ui =>
    simp only [perform]
    rcases mouseDown_buffers tabs screen self x y ui with he | ⟨h1, h2⟩
    · rw [he]
      exact displayInSync_editLine tabs hT screen self ui h
    · rw [h1, h2, h]
  | onResize =>
    simp only [perform, onResize, (scrollToCursorBelow_fields screen self).1,
      (scrollToCursorBelow_fields screen self).2.1, h]
  | editLine ui => exact displayInSync_editLine tabs hT screen self ui h

end TextViewer

theorem Reachable.displayInSync {tabs : Line → Line} (hT : tabs [] = []) {self : TextViewer}
    (h : Reachable tabs self) : self.lines_for_display_ = self.lines_.map tabs := by
  induction h with
  | construct retVal0 clip0 content => rfl
  | perform screen event _ ih => exact TextViewer.displayInSync_perform tabs hT screen _ event ih

/-- C16: when the tab expansion `T` maps the empty line to the empty line, in
every state reachable from a successful construction by the line actions (and
the other operations) the display line at every index `i` is `T` applied to the
line at index `i`. -/
theorem C16_display_is_tab_expansion (tabs : Line → Line) (hT : tabs [] = [])
    (self : TextViewer) (h : Reachable tabs self) (i : Nat) :
    self.lines_for_display_[i]? = (self.lines_[i]?).map tabs := by
  rw [h.displayInSync hT, List.getElem?_map]

/-- C16 for the expansion that replaces every tab by a space, on the state
reached from the file `"a\tb\nc"` by an edit to `"\tx"`, a duplicate, an insert
before, an insert after and a remove: the line at index 2 is `"\tx"` and the
display line at index 2 is `" x"`. -/
theorem C16_display_is_tab_expansion_at_trace :
    ((TextViewer.construct (List.map (fun b => if b = 9 then 32 else b)) 0 0
          (some [97, 9, 98, 10, 99])).performAll
          (List.map (fun b => if b = 9 then 32 else b)) ⟨240, 1, 1⟩
          [.editLine ⟨1, 1, [9, 120]⟩, .editLine ⟨2, 0, []⟩, .editLine ⟨3, 0, []⟩,
            .editLine ⟨4, 0, []⟩, .editLine ⟨5, 0, []⟩]).lines_for_display_[2]?
        = (((TextViewer.construct (List.map (fun b => if b = 9 then 32 else b)) 0 0
          (some [97, 9, 98, 10, 99])).performAll
          (List.map (fun b => if b = 9 then 32 else b)) ⟨240, 1, 1⟩
          [.editLine ⟨1, 1, [9, 120]⟩, .editLine ⟨2, 0, []⟩, .editLine ⟨3, 0, []⟩,
            .editLine ⟨4, 0, []⟩, .editLine ⟨5, 0, []⟩]).lines_[2]?).map
          (List.map (fun b => if b = 9 then 32 else b)) ∧
      ((TextViewer.construct (List.map (fun b => if b = 9 then 32 else b)) 0 0
          (some [97, 9, 98, 10, 99])).performAll
          (List.map (fun b => if b = 9 then 32 else b)) ⟨240, 1, 1⟩
          [.editLine ⟨1, 1, [9, 120]⟩, .editLine ⟨2, 0, []⟩, .editLine ⟨3, 0, []⟩,
            .editLine ⟨4, 0, []⟩, .editLine ⟨5, 0, []⟩]).lines_[2]? = some [9, 120] ∧
      ((TextViewer.construct (List.map (fun b => if b = 9 then 32 else b)) 0 0
          (some [97, 9, 98, 10, 99])).performAll
          (List.map (fun b => if b = 9 then 32 else b)) ⟨240, 1, 1⟩
          [.editLine ⟨1, 1, [9, 120]⟩, .editLine ⟨2, 0, []⟩, .editLine ⟨3, 0, []⟩,
            .editLine ⟨4, 0, []⟩, .editLine ⟨5, 0, []⟩]).lines_for_display_[2]?
        = some [32, 120] :=
  ⟨C16_display_is_tab_expansion (List.map (fun b => if b = 9 then 32 else b)) rfl _
      (Reachable.performAll _ _ (Reachable.construct 0 0 _)) 2,
    by simp only [TextViewer.construct, TextViewer.initial, loadLines_eq]; decide,
    by simp only [TextViewer.construct, TextViewer.initial, loadLines_eq]; decide⟩

/-! ## The scroll offset: `maxFirstLine` and the re-clamp of `moveDown` and `onResize` -/

theorem toInt_of_lt (n : Nat) (h : n < 2147483648) : toInt n = n := by
  unfold toInt
  split <;> omega

namespace TextViewer

theorem maxFirstLine_congr (screen : Screen) (a b : TextViewer) (h : a.lines_ = b.lines_) :
    maxFirstLine screen a = maxFirstLine screen b := by
  unfold maxFirstLine
  rw [h]

/-- For a line count that is an `int` value, `maxFirstLine()` is non-negative
and at most the line count. -/
theorem maxFirstLine_bounds (screen : Screen) (self : TextViewer)
    (hn : self.lines_.length ≤ 2147483647) :
    0 ≤ maxFirstLine screen self ∧ maxFirstLine screen self ≤ self.lines_.length := by
  unfold maxFirstLine toInt wrap
  simp only [SIZE_MOD]
  generalize numFullViewportLines screen = V
  generalize self.lines_.length = n at hn
  split <;> split <;> omega

/-- For a viewport of `V ≥ 1` lines and a line count that is an `int` value,
`maxFirstLine()` is `max (n - V) 0`. -/
theorem maxFirstLine_eq (screen : Screen) (self : TextViewer)
    (hV : 1 ≤ numFullViewportLines screen) (hVmax : numFullViewportLines screen ≤ 2147483647)
    (hn : self.lines_.length ≤ 2147483647) :
    maxFirstLine screen self = max ((self.lines_.length : Int) - numFullViewportLines screen) 0 := by
  unfold maxFirstLine toInt wrap
  simp only [SIZE_MOD]
  generalize numFullViewportLines screen = V at hV hVmax
  generalize self.lines_.length = n at hn
  split <;> split <;> omega

/-- The re-clamp of `moveDown` and `onResize` in exact integers, for a cursor
in the buffer and a viewport of `V ≥ 1` lines: when the cursor is below the
window the scroll offset becomes `current_line_ - V + 1`, the value
`std::min` is given, which is at most `maxFirstLine()`. -/
theorem scrollToCursorBelow_first_line (screen : Screen) (self : TextViewer)
    (hV : 1 ≤ numFullViewportLines screen) (hVmax : numFullViewportLines screen ≤ 2147483647)
    (hn : self.lines_.length ≤ 2147483647) (hc : self.current_line_ < self.lines_.length)
    (hf : self.first_line_ ≤ 2147483647) :
    ((scrollToCursorBelow screen self).first_line_ : Int)
        = (if (self.current_line_ : Int) > self.first_line_ + numFullViewportLines screen - 1
            then (self.current_line_ : Int) - numFullViewportLines screen + 1
            else self.first_line_) ∧
      ((self.current_line_ : Int) > self.first_line_ + numFullViewportLines screen - 1 →
        min (toInt (wrap (self.current_line_ - numFullViewportLines screen + 1)))
            (maxFirstLine screen self)
          = toInt (wrap (self.current_line_ - numFullViewportLines screen + 1)) ∧
        toInt (wrap (self.current_line_ - numFullViewportLines screen + 1))
          = (self.current_line_ : Int) - numFullViewportLines screen + 1) := by
  have hm := maxFirstLine_eq screen self hV hVmax hn
  have hw1 := wrap_eq (self.first_line_ + numFullViewportLines screen - 1) (by omega)
    (by simp only [SIZE_MOD]; omega)
  have key : (self.current_line_ : Int) > self.first_line_ + numFullViewportLines screen - 1 →
      toInt (wrap (self.current_line_ - numFullViewportLines screen + 1))
        = (self.current_line_ : Int) - numFullViewportLines screen + 1 := by
    intro hgt
    have hw2 := wrap_eq (self.current_line_ - numFullViewportLines screen + 1) (by omega)
      (by simp only [SIZE_MOD]; omega)
    exact (toInt_of_lt _ (by omega)).trans hw2
  constructor
  · unfold scrollToCursorBelow
    by_cases hcond : self.current_line_
        > wrap (self.first_line_ + numFullViewportLines screen - 1)
    · have hgt : (self.current_line_ : Int)
          > self.first_line_ + numFullViewportLines screen - 1 := by omega
      rw [if_pos hcond, if_pos hgt]
      simp only
      rw [key hgt, hm]
      have hmin : min ((self.current_line_ : Int) - numFullViewportLines screen + 1)
          (max ((self.lines_.length : Int) - numFullViewportLines screen) 0)
          = (self.current_line_ : Int) - numFullViewportLines screen + 1 := by omega
      rw [hmin]
      exact wrap_eq _ (by omega) (by simp only [SIZE_MOD]; omega)
    · have hgt : ¬ (self.current_line_ : Int)
          > self.first_line_ + numFullViewportLines screen - 1 := by omega
      rw [if_neg hcond, if_neg hgt]
  · intro hgt
    refine ⟨?_, key hgt⟩
    rw [key hgt, hm]
    omega

end TextViewer

/-! ## C14: resize -/

/-- C14: for a state with `first_line_ <= current_line_ < lines_.size()`, a line
count that is an `int` value and a new viewport of `V'` lines with
`1 <= V' <= INT_MAX`, after `onResize` the cursor lies in the window
`first_line_ <= current_line_ <= first_line_ + V' - 1`, and the cursor and both
buffers are unchanged. -/
theorem C14_resize_keeps_cursor_visible (screen : Screen) (self : TextViewer)
    (h1 : self.first_line_ ≤ self.current_line_)
    (h2 : self.current_line_ < self.lines_.length)
    (hV : 1 ≤ numFullViewportLines screen) (hVmax : numFullViewportLines screen ≤ 2147483647)
    (hn : self.lines_.length ≤ 2147483647) :
    (self.onResize screen).CursorInWindow screen ∧
      (self.onResize screen).current_line_ = self.current_line_ ∧
      (self.onResize screen).lines_ = self.lines_ ∧
      (self.onResize screen).lines_for_display_ = self.lines_for_display_ := by
  obtain ⟨hl, hd, hc, -, -⟩ := TextViewer.scrollToCursorBelow_fields screen self
  have hf := (TextViewer.scrollToCursorBelow_first_line screen self hV hVmax hn h2
    (by omega)).1
  refine ⟨?_, hc, hl, hd⟩
  unfold TextViewer.CursorInWindow TextViewer.onResize
  rw [hc]
  split at hf <;> omega

/-- C14 on a ten-line buffer with the cursor 7 and the scroll offset 0, resized
to a viewport of three lines. -/
theorem C14_resize_keeps_cursor_visible_at_three_rows :
    (TextViewer.onResize ⟨56, 1, 1⟩
        { lines_ := List.replicate 10 [97], lines_for_display_ := List.replicate 10 [97],
          first_line_ := 0, current_line_ := 7, clip_x := 0, m_retVal := 0 }).CursorInWindow
        ⟨56, 1, 1⟩ ∧
      (TextViewer.onResize ⟨56, 1, 1⟩
        { lines_ := List.replicate 10 [97], lines_for_display_ := List.replicate 10 [97],
          first_line_ := 0, current_line_ := 7, clip_x := 0, m_retVal := 0 }).first_line_ = 5 :=
  ⟨(C14_resize_keeps_cursor_visible ⟨56, 1, 1⟩
      { lines_ := List.replicate 10 [97], lines_for_display_ := List.replicate 10 [97],
        first_line_ := 0, current_line_ := 7, clip_x := 0, m_retVal := 0 }
      (by decide) (by decide) (by decide) (by decide) (by decide)).1,
    by decide⟩

/-! ## C17: `moveUp` and `moveDown` preserve the window invariant -/

namespace TextViewer

theorem moveUp_first_line (self : TextViewer) (step : Nat) :
    (self.moveUp step).2.first_line_
      = if self.current_line_ - step < self.first_line_ then self.current_line_ - step
        else self.first_line_ := by
  unfold moveUp
  simp only
  by_cases h0 : self.current_line_ > 0
  · by_cases hs : self.current_line_ ≥ step
    · simp only [h0, hs, if_true]
      split <;> simp
    · have hz : self.current_line_ - step = 0 := by omega
      simp only [h0, hs, if_true, if_false, hz]
      split <;> simp
  · have hz : self.current_line_ - step = 0 := by omega
    have hc0 : self.current_line_ = 0 := by omega
    simp only [h0, if_false, hz]
    by_cases hf : self.current_line_ < self.first_line_
    · have hf0 : 0 < self.first_line_ := by omega
      simp only [hf, hf0, if_true]
      exact hc0
    · have hf0 : ¬ 0 < self.first_line_ := by omega
      simp only [hf, hf0, if_false]

/-- The state `moveDown` returns, without machine overflow: the re-clamp
applied to the state with the cursor `min (c + step) (n - 1)`. -/
theorem moveDown_eq (screen : Screen) (self : TextViewer) (step : Nat)
    (hc : self.current_line_ < self.lines_.length)
    (hn : self.lines_.length < 18446744073709551616)
    (hs : self.current_line_ + step < 18446744073709551616) :
    (self.moveDown screen step).2
      = scrollToCursorBelow screen
          { self with
            current_line_ := min (self.current_line_ + step) (self.lines_.length - 1) } := by
  have hne : self.lines_.isEmpty = false := by
    cases hl : self.lines_ with
    | nil => rw [hl] at hc; simp at hc
    | cons a t => rfl
  have h1 := wrap_eq ((self.current_line_ : Int) + 1) (by omega) (by simp only [SIZE_MOD]; omega)
  have h2 := wrap_eq ((self.current_line_ : Int) + step) (by omega)
    (by simp only [SIZE_MOD]; omega)
  have h3 := wrap_eq ((self.lines_.length : Int) - 1) (by omega) (by simp only [SIZE_MOD]; omega)
  unfold moveDown
  simp only [hne, Bool.false_eq_true, if_false]
  congr 1
  split
  · have : min (wrap (↑self.current_line_ + ↑step)) (wrap (↑self.lines_.length - 1))
        = min (self.current_line_ + step) (self.lines_.length - 1) := by omega
    rw [this]
  · have : min (self.current_line_ + step) (self.lines_.length - 1) = self.current_line_ := by
      omega
    rw [this]

end TextViewer

/-- C17: for a viewport of `V` lines with `1 <= V <= INT_MAX`, a line count that
is an `int` value and an `unsigned` step, a state that satisfies the window
invariant satisfies it again after `moveUp(step)` and after `moveDown(step)`;
and when `moveDown` re-clamps, `std::min` returns its first argument
`current_line_ - V + 1`. -/
theorem C17_moves_preserve_window (screen : Screen) (self : TextViewer) (step : Nat)
    (hV : 1 ≤ numFullViewportLines screen) (hVmax : numFullViewportLines screen ≤ 2147483647)
    (hn : self.lines_.length ≤ 2147483647) (hstep : step < 4294967296)
    (hW : self.WindowInvariant screen) :
    (self.moveUp step).2.WindowInvariant screen ∧
      (self.moveDown screen step).2.WindowInvariant screen ∧
      (((self.moveDown screen step).2.current_line_ : Int)
          > self.first_line_ + numFullViewportLines screen - 1 →
        min (toInt (wrap ((self.moveDown screen step).2.current_line_
              - numFullViewportLines screen + 1)))
            (TextViewer.maxFirstLine screen self)
          = toInt (wrap ((self.moveDown screen step).2.current_line_
              - numFullViewportLines screen + 1))) := by
  obtain ⟨hc, hfm, hf1, hf2⟩ := hW
  have hm := TextViewer.maxFirstLine_eq screen self hV hVmax hn
  -- the state `moveDown` re-clamps
  have hdown := TextViewer.moveDown_eq screen self step hc (by omega) (by omega)
  have hc1 : min (self.current_line_ + step) (self.lines_.length - 1) < self.lines_.length := by
    omega
  have hscroll := TextViewer.scrollToCursorBelow_first_line screen
    { self with current_line_ := min (self.current_line_ + step) (self.lines_.length - 1) }
    hV hVmax hn hc1 (by show self.first_line_ ≤ 2147483647; omega)
  have hfields := TextViewer.scrollToCursorBelow_fields screen
    { self with current_line_ := min (self.current_line_ + step) (self.lines_.length - 1) }
  simp only at hscroll hfields
  refine ⟨?_, ?_, ?_⟩
  · obtain ⟨hl, -, -, -, hcur⟩ := TextViewer.moveUp_fields self step
    have hfirst := TextViewer.moveUp_first_line self step
    unfold TextViewer.WindowInvariant TextViewer.CursorInWindow
    rw [TextViewer.maxFirstLine_congr screen _ self hl, hl, hcur, hfirst]
    split <;> omega
  · unfold TextViewer.WindowInvariant TextViewer.CursorInWindow
    rw [hdown, TextViewer.maxFirstLine_congr screen _ self hfields.1, hfields.1, hfields.2.2.1]
    have hfirst := hscroll.1
    split at hfirst <;> omega
  · rw [hdown, hfields.2.2.1]
    intro hgt
    exact (hscroll.2 hgt).1

/-- C17 on a ten-line buffer under a viewport of three lines, with the cursor 4
in the window `[2, 4]`: the invariant holds after `moveUp 3` and after
`moveDown 2`. -/
theorem C17_moves_preserve_window_at_ten_lines :
    ((TextViewer.moveUp
        { lines_ := List.replicate 10 [97], lines_for_display_ := List.replicate 10 [97],
          first_line_ := 2, current_line_ := 4, clip_x := 0, m_retVal := 0 } 3).2).WindowInvariant
        ⟨56, 1, 1⟩ ∧
      ((TextViewer.moveDown ⟨56, 1, 1⟩
        { lines_ := List.replicate 10 [97], lines_for_display_ := List.replicate 10 [97],
          first_line_ := 2, current_line_ := 4, clip_x := 0, m_retVal := 0 } 2).2).WindowInvariant
        ⟨56, 1, 1⟩ ∧
      (TextViewer.moveDown ⟨56, 1, 1⟩
        { lines_ := List.replicate 10 [97], lines_for_display_ := List.replicate 10 [97],
          first_line_ := 2, current_line_ := 4, clip_x := 0, m_retVal := 0 } 2).2.first_line_ = 4 :=
  have h := C17_moves_preserve_window ⟨56, 1, 1⟩
    { lines_ := List.replicate 10 [97], lines_for_display_ := List.replicate 10 [97],
      first_line_ := 2, current_line_ := 4, clip_x := 0, m_retVal := 0 } 2
    (by decide) (by decide) (by decide) (by decide)
    (by unfold TextViewer.WindowInvariant TextViewer.CursorInWindow; decide)
  have h3 := C17_moves_preserve_window ⟨56, 1, 1⟩
    { lines_ := List.replicate 10 [97], lines_for_display_ := List.replicate 10 [97],
      first_line_ := 2, current_line_ := 4, clip_x := 0, m_retVal := 0 } 3
    (by decide) (by decide) (by decide) (by decide)
    (by unfold TextViewer.WindowInvariant TextViewer.CursorInWindow; decide)
  ⟨h3.1, h.2.1, by decide⟩

/-! ## C13: the duplicate-line action -/

theorem insertIdx_eq_take_drop {α : Type} (a : α) (l : List α) :
    ∀ k : Nat, k ≤ l.length → l.insertIdx k a = l.take k ++ a :: l.drop k := by
  induction l with
  | nil =>
    intro k hk
    have hk0 : k = 0 := by simpa using hk
    subst hk0
    simp
  | cons x l ih =>
    intro k hk
    cases k with
    | zero => simp
    | succ k =>
      have hk' : k ≤ l.length := by simpa using hk
      simp [List.insertIdx_succ_cons, ih k hk']

theorem TextViewer.handleDuplicateLine_fields (screen : Screen) (self : TextViewer) :
    (TextViewer.handleDuplicateLine screen self).lines_
        = self.lines_.insertIdx (self.current_line_ + 1)
            (self.lines_.getD self.current_line_ []) ∧
      (TextViewer.handleDuplicateLine screen self).lines_for_display_
        = self.lines_for_display_.insertIdx (self.current_line_ + 1)
            (self.lines_for_display_.getD self.current_line_ []) ∧
      (TextViewer.handleDuplicateLine screen self).current_line_ = self.current_line_ ∧
      (TextViewer.handleDuplicateLine screen self).first_line_
        = (if self.first_line_ < wrap (TextViewer.maxFirstLine screen
              { self with
                lines_ := self.lines_.insertIdx (self.current_line_ + 1)
                  (self.lines_.getD self.current_line_ []) })
            then wrap (self.first_line_ + 1) else self.first_line_) := by
  have hm : TextViewer.maxFirstLine screen
      { self with
        lines_ := self.lines_.insertIdx (self.current_line_ + 1)
          (self.lines_.getD self.current_line_ []),
        lines_for_display_ := self.lines_for_display_.insertIdx (self.current_line_ + 1)
          (self.lines_for_display_.getD self.current_line_ []) }
      = TextViewer.maxFirstLine screen
      { self with
        lines_ := self.lines_.insertIdx (self.current_line_ + 1)
          (self.lines_.getD self.current_line_ []) } :=
    TextViewer.maxFirstLine_congr screen _ _ rfl
  unfold TextViewer.handleDuplicateLine
  simp only [hm]
  split <;> exact ⟨rfl, rfl, rfl, rfl⟩

/-- C13: the duplicate-line action on a state whose buffers have `n` lines
(with `n + 1` an `int` value) and whose cursor is `c < n`: a copy of the line at
`c` is inserted at index `c + 1` of the line buffer, a copy of the display line
at `c` at index `c + 1` of the display buffer, the cursor stays `c`, and the
scroll offset is increased by one exactly when it is below `maxFirstLine()` of
the enlarged buffer. -/
theorem C13_duplicate_line (tabs : Line → Line) (screen : Screen) (self : TextViewer)
    (ui : DialogInput) (hui : ui.dialog_result = 2)
    (hlen : self.lines_for_display_.length = self.lines_.length)
    (hc : self.current_line_ < self.lines_.length)
    (hn : self.lines_.length + 1 ≤ 2147483647) :
    ∃ line shown : Line,
      self.lines_[self.current_line_]? = some line ∧
      self.lines_for_display_[self.current_line_]? = some shown ∧
      (self.editLine tabs screen ui).2.lines_
        = self.lines_.take (self.current_line_ + 1)
            ++ line :: self.lines_.drop (self.current_line_ + 1) ∧
      (self.editLine tabs screen ui).2.lines_for_display_
        = self.lines_for_display_.take (self.current_line_ + 1)
            ++ shown :: self.lines_for_display_.drop (self.current_line_ + 1) ∧
      (self.editLine tabs screen ui).2.lines_.length = self.lines_.length + 1 ∧
      (self.editLine tabs screen ui).2.current_line_ = self.current_line_ ∧
      (self.editLine tabs screen ui).2.first_line_
        = (if (self.first_line_ : Int)
              < TextViewer.maxFirstLine screen (self.editLine tabs screen ui).2
            then self.first_line_ + 1 else self.first_line_) := by
  have hed : (self.editLine tabs screen ui).2 = TextViewer.handleDuplicateLine screen self := by
    simp [TextViewer.editLine, hui]
  have hcd : self.current_line_ < self.lines_for_display_.length := by omega
  refine ⟨self.lines_.getD self.current_line_ [],
    self.lines_for_display_.getD self.current_line_ [], ?_, ?_, ?_⟩
  · rw [List.getD_eq_getElem?_getD, List.getElem?_eq_getElem hc]
    rfl
  · rw [List.getD_eq_getElem?_getD, List.getElem?_eq_getElem hcd]
    rfl
  rw [hed]
  obtain ⟨hRl, hRd, hRc, hRf⟩ := TextViewer.handleDuplicateLine_fields screen self
  have hins1 := insertIdx_eq_take_drop (self.lines_.getD self.current_line_ []) self.lines_
    (self.current_line_ + 1) (by omega)
  have hins2 := insertIdx_eq_take_drop (self.lines_for_display_.getD self.current_line_ [])
    self.lines_for_display_ (self.current_line_ + 1) (by omega)
  have hlen1 : (self.lines_.insertIdx (self.current_line_ + 1)
      (self.lines_.getD self.current_line_ [])).length = self.lines_.length + 1 :=
    List.length_insertIdx _ _ (by omega)
  have hmR : TextViewer.maxFirstLine screen (TextViewer.handleDuplicateLine screen self)
      = TextViewer.maxFirstLine screen
          { self with
            lines_ := self.lines_.insertIdx (self.current_line_ + 1)
              (self.lines_.getD self.current_line_ []) } :=
    TextViewer.maxFirstLine_congr screen _ _ hRl
  have hb := TextViewer.maxFirstLine_bounds screen
    { self with
      lines_ := self.lines_.insertIdx (self.current_line_ + 1)
        (self.lines_.getD self.current_line_ []) }
    (by simp only [hlen1]; omega)
  simp only [hlen1] at hb
  have hw := wrap_eq _ hb.1 (by simp only [SIZE_MOD]; omega)
  refine ⟨hRl.trans hins1, hRd.trans hins2, by rw [hRl, hlen1], hRc, ?_⟩
  rw [hRf, hmR]
  have hw1 : (self.first_line_ : Int) < TextViewer.maxFirstLine screen
        { self with
          lines_ := self.lines_.insertIdx (self.current_line_ + 1)
            (self.lines_.getD self.current_line_ []) } →
      wrap (self.first_line_ + 1) = self.first_line_ + 1 := by
    intro hlt
    have := wrap_eq ((self.first_line_ : Int) + 1) (by omega) (by simp only [SIZE_MOD]; omega)
    omega
  split <;> split <;> omega

/-- C13 on the buffer `["a", "b", "c", "d"]` with the cursor 1 under a viewport
of three lines: the result is `["a", "b", "b", "c", "d"]`, the cursor stays 1
and the scroll offset goes from 0 to 1. -/
theorem C13_duplicate_line_at_abcd :
    TextViewer.editLine id ⟨56, 1, 1⟩
        { lines_ := [[97], [98], [99], [100]], lines_for_display_ := [[97], [98], [99], [100]],
          first_line_ := 0, current_line_ := 1, clip_x := 0, m_retVal := 0 } ⟨2, 0, []⟩
      = (true,
          { lines_ := [[97], [98], [98], [99], [100]],
            lines_for_display_ := [[97], [98], [98], [99], [100]],
            first_line_ := 1, current_line_ := 1, clip_x := 0, m_retVal := 0 }) ∧
      ∃ line shown : Line,
        ([[97], [98], [99], [100]] : List Line)[1]? = some line ∧
        ([[97], [98], [99], [100]] : List Line)[1]? = some shown ∧
        (TextViewer.editLine id ⟨56, 1, 1⟩
          { lines_ := [[97], [98], [99], [100]], lines_for_display_ := [[97], [98], [99], [100]],
            first_line_ := 0, current_line_ := 1, clip_x := 0, m_retVal := 0 } ⟨2, 0, []⟩).2.lines_
          = List.take (1 + 1) [[97], [98], [99], [100]]
              ++ line :: List.drop (1 + 1) [[97], [98], [99], [100]] :=
  ⟨by decide,
    let ⟨line, shown, h1, h2, h3, _⟩ := C13_duplicate_line id ⟨56, 1, 1⟩
      { lines_ := [[97], [98], [99], [100]], lines_for_display_ := [[97], [98], [99], [100]],
        first_line_ := 0, current_line_ := 1, clip_x := 0, m_retVal := 0 } ⟨2, 0, []⟩ rfl
      (by decide) (by decide) (by decide)
    ⟨line, shown, h1, h2, h3⟩⟩

/-! ## What the code does at C11, C12 and C18 -/

/-- The code at C11: a primary click on row `r ≥ 0` holding a line that is not
the cursor line sets the cursor to `first_line_ + r`, and increases the scroll
offset by one exactly when `r > numFullViewportLines()` (all values being `int`
values). -/
theorem TextViewer.mouseDown_other_line (tabs : Line → Line) (screen : Screen)
    (self : TextViewer) (x y : Int) (ui : DialogInput) (r : Int)
    (hr : TextViewer.getLineAt screen self x y = r) (hr0 : 0 ≤ r) (hrmax : r ≤ 2147483647)
    (hV0 : 0 ≤ numFullViewportLines screen) (hVmax : numFullViewportLines screen ≤ 2147483647)
    (hf : self.first_line_ ≤ 2147483647)
    (hne : (self.current_line_ : Int) ≠ self.first_line_ + r) :
    (self.first_line_ : Int) + r < self.lines_.length ∧
      ((self.mouseDown tabs screen .left x y ui).2.current_line_ : Int) = self.first_line_ + r ∧
      (self.mouseDown tabs screen .left x y ui).2.first_line_
        = (if numFullViewportLines screen < r then self.first_line_ + 1 else self.first_line_) ∧
      (self.mouseDown tabs screen .left x y ui).2.lines_ = self.lines_ ∧
      (self.mouseDown tabs screen .left x y ui).2.lines_for_display_
        = self.lines_for_display_ := by
  have hline : TextViewer.getLineAt screen self x y ≠ -1 := by
    rw [hr]
    omega
  have hlt := TextViewer.getLineAt_ne screen self x y hline
  rw [hr] at hlt
  have hw := wrap_eq ((self.first_line_ : Int) + r) (by omega) (by simp only [SIZE_MOD]; omega)
  have hwV := wrap_eq ((self.first_line_ : Int) + numFullViewportLines screen) (by omega)
    (by simp only [SIZE_MOD]; omega)
  have hw1 := wrap_eq ((self.first_line_ : Int) + 1) (by omega) (by simp only [SIZE_MOD]; omega)
  have hcur : self.current_line_ ≠ wrap (self.first_line_ + r) := by omega
  unfold TextViewer.mouseDown
  simp only [hr, hline, ne_eq, not_false_eq_true, if_true, hcur, if_false]
  rw [hr] at hline
  simp only [hline, not_false_eq_true, if_true]
  refine ⟨by omega, ?_⟩
  split
  · rename_i hnudge
    refine ⟨hw, ?_, rfl, rfl⟩
    simp only
    have : numFullViewportLines screen < r := by omega
    rw [if_pos this]
    omega
  · rename_i hnudge
    refine ⟨hw, ?_, rfl, rfl⟩
    have : ¬ numFullViewportLines screen < r := by omega
    rw [if_neg this]

/-- The code at C12: for a cursor `c` in the buffer with `first_line_ <= c`, the
insert-before action puts an empty line at index `c`, moves the cursor to
`c + 1`, where the old line `c` now is, and leaves the scroll offset
unchanged. -/
theorem TextViewer.handleInsertLineBefore_spec (self : TextViewer)
    (hc : self.current_line_ < self.lines_.length)
    (hn : self.lines_.length < 18446744073709551616)
    (hf : self.first_line_ ≤ self.current_line_) :
    (TextViewer.handleInsertLineBefore self).lines_
        = self.lines_.take self.current_line_ ++ [] :: self.lines_.drop self.current_line_ ∧
      (TextViewer.handleInsertLineBefore self).lines_[self.current_line_]? = some [] ∧
      (TextViewer.handleInsertLineBefore self).current_line_ = self.current_line_ + 1 ∧
      (TextViewer.handleInsertLineBefore self).lines_[self.current_line_ + 1]?
        = self.lines_[self.current_line_]? ∧
      (TextViewer.handleInsertLineBefore self).first_line_ = self.first_line_ := by
  have hw := wrap_eq ((self.current_line_ : Int) + 1) (by omega) (by simp only [SIZE_MOD]; omega)
  have hins := insertIdx_eq_take_drop ([] : Line) self.lines_ self.current_line_ (by omega)
  have hcur : wrap ((self.current_line_ : Int) + 1) = self.current_line_ + 1 := by omega
  have hneq : ¬ wrap ((self.current_line_ : Int) + 1) = self.first_line_ := by omega
  have htake : (List.take self.current_line_ self.lines_).length = self.current_line_ := by
    rw [List.length_take]
    omega
  have hneq' : ¬ self.current_line_ + 1 = self.first_line_ := by omega
  unfold TextViewer.handleInsertLineBefore
  simp only [hins, hcur, hneq', if_false]
  refine ⟨trivial, ?_, ?_⟩
  · rw [List.getElem?_append_right (by omega), htake]
    simp
  · rw [List.getElem?_append_right (by omega), htake]
    simp

theorem skipTrailBytesBack_le (title : Line) (len : Nat) :
    skipTrailBytesBack title len ≤ len := by
  induction len with
  | zero => simp [skipTrailBytesBack]
  | succ len ih =>
    unfold skipTrailBytesBack
    split <;> omega

/-- The code at C18: the text of a line longer than 60 bytes is a prefix of the
line, of at most 57 bytes, followed by `"..."`, so it has at most 60 bytes. -/
theorem truncateTitle_long (title : Line) (h : title.length > kMaxTitleLen) :
    titleCut title ≤ 57 ∧
      truncateTitle title = title.take (titleCut title) ++ [46, 46, 46] ∧
      (truncateTitle title).length ≤ 60 := by
  have hcut : titleCut title ≤ 57 := by
    unfold titleCut
    split
    · exact skipTrailBytesBack_le title _
    · simp [kMaxTitleLen]
  have heq : truncateTitle title = title.take (titleCut title) ++ [46, 46, 46] := by
    unfold truncateTitle
    rw [if_pos h]
  refine ⟨hcut, heq, ?_⟩
  rw [heq]
  simp only [List.length_append, List.length_take, List.length_cons, List.length_nil]
  omega

end Commander
